import Mathlib

/-!
Shallow embedding of the CW/Morse decoder of this repository
(src/utils/morse.py) and of the decision logic of its HTTP control
routes (src/routes/morse.py).

Modelling conventions:
- Python floats are modelled as exact rationals.  All arithmetic that the
  claims depend on (comparisons against thresholds, EMA updates, clamps)
  is +, *, /, min, max, so the control flow agrees with the float code.
- The Goertzel magnitude of one analysis window and its RMS are
  transcendental (cos, sqrt); they are abstracted as per-window inputs:
  a Window carries the RMS of the pre-gain normalized block and a
  function magAt giving the Goertzel magnitude of the pre-gain block at
  any frequency.  The Goertzel magnitude is linear in the input scale,
  so the post-AGC magnitude is agc_gain * magAt f.
- Wall-clock timestamps carried by some events are omitted from the
  event payloads (they never influence control flow).
- Python deque(maxlen=32) is a list that drops from the left on
  overflow; Python sorted on a list of floats is any sort of the list
  of values (equal elements are identical values), embedded as an
  insertion sort.
-/

/-- Python helper _clamp(value, lo, hi) = min(hi, max(lo, value)) from
src/utils/morse.py. -/
def clampQ (value lo hi : ℚ) : ℚ := min hi (max lo value)

/-- Round to the nearest integer, ties to even: the semantics of Python
round(x) used via round(x, 1). -/
def roundHalfEven (q : ℚ) : ℤ :=
  let f := ⌊q⌋
  let r := q - (f : ℚ)
  if r < 1/2 then f
  else if 1/2 < r then f + 1
  else if f % 2 = 0 then f else f + 1

/-- Python round(x, 1). -/
def pyRound1 (x : ℚ) : ℚ := ((roundHalfEven (10 * x) : ℤ) : ℚ) / 10

/-- Insert into a sorted list of rationals, keeping order. -/
def insertSorted (x : ℚ) : List ℚ → List ℚ
  | [] => [x]
  | y :: ys => if x ≤ y then x :: y :: ys else y :: insertSorted x ys

/-- Sorting a list of rationals: the embedding of Python sorted(...)
(on rational values every sort returns the same list). -/
def sortQ : List ℚ → List ℚ
  | [] => []
  | x :: xs => insertSorted x (sortQ xs)

/-- Append to a deque with maxlen 32: drop from the left on overflow. -/
def pushObs (l : List ℚ) (b : ℚ) : List ℚ :=
  let l2 := l ++ [b]
  if 32 < l2.length then l2.drop (l2.length - 32) else l2

/-- MORSE_TABLE from src/utils/morse.py lines 35-52, in source order.
All keys are distinct, so the Python dict is this association list. -/
def MORSE_TABLE : List (String × String) :=
  [(".-", "A"), ("-...", "B"), ("-.-.", "C"), ("-..", "D"), (".", "E"),
   ("..-.", "F"), ("--.", "G"), ("....", "H"), ("..", "I"), (".---", "J"),
   ("-.-", "K"), (".-..", "L"), ("--", "M"), ("-.", "N"), ("---", "O"),
   (".--.", "P"), ("--.-", "Q"), (".-.", "R"), ("...", "S"), ("-", "T"),
   ("..-", "U"), ("...-", "V"), (".--", "W"), ("-..-", "X"), ("-.--", "Y"),
   ("--..", "Z"),
   ("-----", "0"), (".----", "1"), ("..---", "2"), ("...--", "3"),
   ("....-", "4"), (".....", "5"), ("-....", "6"), ("--...", "7"),
   ("---..", "8"), ("----.", "9"),
   (".-.-.-", "."), ("--..--", ","), ("..--..", "?"), (".----.", "\x27"),
   ("-.-.--", "!"), ("-..-.", "/"), ("-.--.", "("), ("-.--.-", ")"),
   (".-...", "&"), ("---...", ":"), ("-.-.-.", ";"), ("-...-", "="),
   (".-.-.", "+"), ("-....-", "-"), ("..--.-", "_"), (".-..-.", "\""),
   ("...-..-", "$"), (".--.-.", "@"),
   ("-.-.-", "<CT>"), (".-.-", "<AA>"), ("...-.-", "<SK>")]

/-- CHAR_TO_MORSE from src/utils/morse.py line 55: the reversed pairs.
The Python dict comprehension keeps the last binding per key; since the
values of MORSE_TABLE are pairwise distinct (proved below) the mapping
is exactly this association list. -/
def CHAR_TO_MORSE : List (String × String) :=
  MORSE_TABLE.map (fun p => (p.2, p.1))

/-- Dict lookup MORSE_TABLE.get(symbol). -/
def lookupMorse (code : String) : Option String :=
  (MORSE_TABLE.find? (fun p => p.1 == code)).map (fun p => p.2)

/-- Dict lookup CHAR_TO_MORSE.get(char). -/
def lookupChar (c : String) : Option String :=
  (CHAR_TO_MORSE.find? (fun p => p.1 == c)).map (fun p => p.2)

/-- Gap kind carried by morse_gap events. -/
inductive GapKind where
  | char
  | word
deriving DecidableEq

/-- DecodeEvent: the dictionaries produced by the Decode Core and the
pipeline runner, keyed by their type field.  Wall-clock timestamp
fields are omitted. -/
inductive MorseEvent where
  | scope (amplitudes : List ℚ) (threshold : ℚ) (tone_on : Bool)
      (tone_freq : ℚ) (level : ℚ) (noise_floor : ℚ) (wpm : ℚ) (dit_ms : ℚ)
  | waitingScope (waiting_seconds : ℚ)
  | element (elt : String) (duration_ms : ℚ)
  | char (c : String) (morse : String)
  | space
  | gap (kind : GapKind) (duration_ms : ℚ)
  | status (text : String)
  | info (text : String)
deriving DecidableEq

/-- The events whose type field is scope (the rate-limited kind in the
pipeline runner; the waiting heartbeat also has type scope). -/
def eventIsScope : MorseEvent → Bool
  | .scope _ _ _ _ _ _ _ _ => true
  | .waitingScope _ => true
  | _ => false

/-- threshold_mode after _normalize_threshold_mode. -/
inductive ThresholdMode where
  | auto
  | manual
deriving DecidableEq

/-- wpm_mode after _normalize_wpm_mode. -/
inductive WpmMode where
  | auto
  | manual
deriving DecidableEq

/-- The state of one MorseDecoder instance (src/utils/morse.py lines
122-220).  Field names follow the Python attributes with the leading
underscore dropped.  mag_min is Option: none models the float inf it is
initialized to.  tone_blocks and silence_blocks only ever hold whole
numbers in the Python code (they are reset to 0.0 and incremented by
1.0), so they are embedded as naturals. -/
structure MorseDecoder where
  sample_rate : ℕ
  tone_freq : ℚ
  wpm : ℤ
  bandwidth_hz : ℤ
  auto_tone_track : Bool
  tone_lock : Bool
  threshold_mode : ThresholdMode
  manual_threshold : ℚ
  threshold_multiplier : ℚ
  threshold_offset : ℚ
  wpm_mode : WpmMode
  wpm_lock : Bool
  min_signal_gate : ℚ
  block_size : ℕ
  block_duration : ℚ
  active_tone_freq : ℚ
  tone_anchor_freq : ℚ
  tone_scan_range_hz : ℚ
  tone_scan_step_hz : ℚ
  tone_scan_interval_blocks : ℕ
  agc_target : ℚ
  agc_gain : ℚ
  agc_alpha : ℚ
  attack_alpha : ℚ
  release_alpha : ℚ
  envelope : ℚ
  noise_floor : ℚ
  signal_peak : ℚ
  threshold : ℚ
  hysteresis : ℚ
  WARMUP_BLOCKS : ℕ
  SETTLE_BLOCKS : ℕ
  mag_min : Option ℚ
  mag_max : ℚ
  blocks_processed : ℕ
  dah_threshold : ℚ
  dit_min : ℚ
  char_gap : ℚ
  word_gap : ℚ
  dit_observations : List ℚ
  estimated_wpm : ℚ
  tone_on : Bool
  tone_blocks : ℕ
  silence_blocks : ℕ
  current_symbol : String
  pending_buffer : List ℤ
  last_level : ℚ
  last_noise_ref : ℚ
deriving DecidableEq

/-- MorseDecoder.__init__ (src/utils/morse.py lines 125-220).  The mode
arguments are taken already normalized (the Python string normalization
is modelled at the route layer). -/
def mkMorseDecoder (sample_rate : ℕ) (tone_freq : ℚ) (wpm : ℤ)
    (bandwidth_hz : ℚ) (auto_tone_track : Bool) (tone_lock : Bool)
    (threshold_mode : ThresholdMode) (manual_threshold : ℚ)
    (threshold_multiplier : ℚ) (threshold_offset : ℚ)
    (wpm_mode : WpmMode) (wpm_lock : Bool) (min_signal_gate : ℚ) :
    MorseDecoder :=
  let block_size := max 64 (sample_rate / 50)
  let block_duration : ℚ := (block_size : ℚ) / (sample_rate : ℚ)
  let active := clampQ tone_freq 300 1200
  let dit_sec : ℚ := 1.2 / ((max wpm 1 : ℤ) : ℚ)
  let dit_blocks : ℚ := max 1 (dit_sec / block_duration)
  { sample_rate := sample_rate
    tone_freq := tone_freq
    wpm := wpm
    bandwidth_hz := ⌊clampQ bandwidth_hz 50 400⌋
    auto_tone_track := auto_tone_track
    tone_lock := tone_lock
    threshold_mode := threshold_mode
    manual_threshold := max 0 manual_threshold
    threshold_multiplier := clampQ threshold_multiplier 1.1 8.0
    threshold_offset := max 0 threshold_offset
    wpm_mode := wpm_mode
    wpm_lock := wpm_lock
    min_signal_gate := clampQ min_signal_gate 0 1
    block_size := block_size
    block_duration := block_duration
    active_tone_freq := active
    tone_anchor_freq := active
    tone_scan_range_hz := 180
    tone_scan_step_hz := 10
    tone_scan_interval_blocks := 8
    agc_target := 0.22
    agc_gain := 1
    agc_alpha := 0.06
    attack_alpha := 0.55
    release_alpha := 0.45
    envelope := 0
    noise_floor := 0
    signal_peak := 0
    threshold := 0
    hysteresis := 0.12
    WARMUP_BLOCKS := 16
    SETTLE_BLOCKS := 140
    mag_min := none
    mag_max := 0
    blocks_processed := 0
    dah_threshold := 2.2 * dit_blocks
    dit_min := 0.38 * dit_blocks
    char_gap := 2.6 * dit_blocks
    word_gap := 6.0 * dit_blocks
    dit_observations := []
    estimated_wpm := (wpm : ℚ)
    tone_on := false
    tone_blocks := 0
    silence_blocks := 0
    current_symbol := ""
    pending_buffer := []
    last_level := 0
    last_noise_ref := 0 }

/-- The decoder built with all Python default arguments. -/
def defaultMorseDecoder : MorseDecoder :=
  mkMorseDecoder 8000 700 15 200 true false .auto 0 2.8 0 .auto false 0

/-- One analysis window of normalized samples, abstracted by its
measurable quantities: rms is the RMS of the pre-gain normalized block,
magAt f is the Goertzel magnitude of the pre-gain normalized block at
frequency f.  The post-AGC magnitude is agc_gain * magAt f because the
Goertzel magnitude is linear in the input scale. -/
structure Window where
  rms : ℚ
  magAt : ℚ → ℚ

/-- MorseDecoder.reset_calibration (src/utils/morse.py lines 222-235). -/
def reset_calibration (s : MorseDecoder) : MorseDecoder :=
  { s with
    noise_floor := 0
    signal_peak := 0
    threshold := 0
    mag_min := none
    mag_max := 0
    blocks_processed := 0
    dit_observations := []
    estimated_wpm := (s.wpm : ℚ)
    tone_on := false
    tone_blocks := 0
    silence_blocks := 0
    current_symbol := "" }

/-- The AGC update at the top of the per-window loop
(src/utils/morse.py lines 377-382). -/
def agcStep (s : MorseDecoder) (rms : ℚ) : MorseDecoder :=
  if rms > 1/10000000 then
    let desired_gain := s.agc_target / rms
    let g := s.agc_gain + s.agc_alpha * (desired_gain - s.agc_gain)
    { s with agc_gain := clampQ g 0.2 450 }
  else s

/-- Center frequency of the low adjacent-band noise detector, as built
in __init__ and _rebuild_detectors. -/
def noise_low_freq (s : MorseDecoder) : ℚ :=
  clampQ (s.active_tone_freq - max 60 ((s.bandwidth_hz : ℚ) * 0.5)) 150 2000

/-- Center frequency of the high adjacent-band noise detector. -/
def noise_high_freq (s : MorseDecoder) : ℚ :=
  clampQ (s.active_tone_freq + max 60 ((s.bandwidth_hz : ℚ) * 0.5)) 150 2000

/-- Post-AGC Goertzel magnitude of this window at frequency f. -/
def magAtGain (s : MorseDecoder) (w : Window) (f : ℚ) : ℚ :=
  s.agc_gain * w.magAt f

/-- The three magnitude measurements of one window: the tone magnitude
and the adjacent-band noise reference
(src/utils/morse.py lines 386-389). -/
def measureWindow (s : MorseDecoder) (w : Window) : ℚ × ℚ :=
  let mag := magAtGain s w s.active_tone_freq
  let noise_low := magAtGain s w (noise_low_freq s)
  let noise_high := magAtGain s w (noise_high_freq s)
  (mag, max (1/1000000000) ((noise_low + noise_high) * 0.5))

/-- The frequencies visited by the scan loop of
_estimate_tone_frequency: freq = lo, lo+step, ... while
freq <= hi + 1e-6. -/
def scanFreqs (s : MorseDecoder) : List ℚ :=
  let lo := clampQ (s.active_tone_freq - s.tone_scan_range_hz) 300 1200
  let hi := clampQ (s.active_tone_freq + s.tone_scan_range_hz) 300 1200
  let step := s.tone_scan_step_hz
  (List.range (Nat.floor ((hi + 1/1000000 - lo) / step) + 1)).map
    (fun k => lo + step * (k : ℚ))

/-- The scan loop of _estimate_tone_frequency (src/utils/morse.py lines
286-295): best (freq, magnitude) over the scanned grid, seeded with the
current tone and its magnitude; only a strict improvement moves it. -/
def scanBest (s : MorseDecoder) (w : Window) (signal_mag : ℚ) : ℚ × ℚ :=
  (scanFreqs s).foldl
    (fun best f =>
      let m := magAtGain s w f
      if m > best.2 then (f, m) else best)
    (s.active_tone_freq, signal_mag)

/-- MorseDecoder._estimate_tone_frequency (src/utils/morse.py lines
264-315).  Returns some of the updated state when the detector
frequency changed, none otherwise.  _rebuild_detectors is implicit:
the detector frequencies are derived from active_tone_freq in measureWindow. -/
def estimate_tone_frequency (s : MorseDecoder) (w : Window)
    (signal_mag noise_ref : ℚ) : Option MorseDecoder :=
  if !s.auto_tone_track || s.tone_lock then none
  else if signal_mag ≤ max (noise_ref * 1.8) 0.02 then none
  else
    let lo := clampQ (s.active_tone_freq - s.tone_scan_range_hz) 300 1200
    let hi := clampQ (s.active_tone_freq + s.tone_scan_range_hz) 300 1200
    if hi ≤ lo then none
    else
      let best := scanBest s w signal_mag
      if best.2 ≤ signal_mag * 1.12 then none
      else
        let delta := clampQ (best.1 - s.active_tone_freq) (-30) 30
        let smoothed0 := s.active_tone_freq + 0.35 * delta
        let smoothed := clampQ smoothed0
          (max 300 (s.tone_anchor_freq - 240))
          (min 1200 (s.tone_anchor_freq + 240))
        if |smoothed - s.active_tone_freq| ≥ 2.5 then
          some { s with active_tone_freq := smoothed }
        else none

/-- The auto-tone-tracking call site inside process_block
(src/utils/morse.py lines 391-402): the scan runs only past warm-up and
every tone_scan_interval_blocks windows; on a retune the magnitudes of
the current window are re-measured at the new frequency. -/
def retuneStep (s : MorseDecoder) (w : Window) (mag noise_ref : ℚ) :
    MorseDecoder × ℚ × ℚ :=
  if s.auto_tone_track && !s.tone_lock
      && decide (s.blocks_processed > s.WARMUP_BLOCKS)
      && (s.blocks_processed % s.tone_scan_interval_blocks == 0) then
    match estimate_tone_frequency s w mag noise_ref with
    | some s2 => let m := measureWindow s2 w; (s2, m.1, m.2)
    | none => (s, mag, noise_ref)
  else (s, mag, noise_ref)

/-- Envelope smoothing and diagnostics (src/utils/morse.py lines
404-408). -/
def envelopeStep (s : MorseDecoder) (level noise_ref : ℚ) : MorseDecoder :=
  let alpha := if level ≥ s.envelope then s.attack_alpha else s.release_alpha
  let env := s.envelope + alpha * (level - s.envelope)
  { s with envelope := env, last_level := env, last_noise_ref := noise_ref }

/-- Warm-up bootstrap and adaptive threshold tracking
(src/utils/morse.py lines 411-466).  Returns the updated state and the
tone_detected decision of this window. -/
def thresholdStep (s : MorseDecoder) (level noise_ref : ℚ) :
    MorseDecoder × Bool :=
  if s.blocks_processed ≤ s.WARMUP_BLOCKS then
    let mmin := match s.mag_min with
      | none => level
      | some m => min m level
    let mmax := max s.mag_max level
    let s1 := { s with mag_min := some mmin, mag_max := mmax }
    let s2 :=
      if s1.blocks_processed == s1.WARMUP_BLOCKS then
        let nf := mmin
        let sp := if mmax ≤ nf * 1.2 then max (nf + 0.5) (nf * 2.5)
                  else max mmax (nf * 1.8)
        { s1 with noise_floor := nf, signal_peak := sp,
                  threshold := nf + 0.22 * (sp - nf) }
      else s1
    (s2, false)
  else
    let settle_alpha : ℚ :=
      if s.blocks_processed < s.WARMUP_BLOCKS + s.SETTLE_BLOCKS then 0.30
      else 0.06
    let s1 :=
      if level ≤ s.threshold then
        { s with noise_floor := s.noise_floor + settle_alpha * (level - s.noise_floor) }
      else
        { s with signal_peak := s.signal_peak + settle_alpha * (level - s.signal_peak) }
    let s2 := { s1 with signal_peak := max s1.signal_peak (s1.noise_floor * 1.05) }
    let s3 := { s2 with noise_floor := s2.noise_floor + (settle_alpha * 0.25) * (noise_ref - s2.noise_floor) }
    let thr := match s3.threshold_mode with
      | .manual => max 0 s3.manual_threshold
      | .auto =>
        max (max 0 (s3.noise_floor * s3.threshold_multiplier) + s3.threshold_offset)
            (s3.noise_floor + 0.35)
    let s4 := { s3 with threshold := thr }
    let dynamic_span := max 0 (s4.signal_peak - s4.noise_floor)
    let gate_level := s4.noise_floor + s4.min_signal_gate * dynamic_span
    let gate_ok := decide (s4.min_signal_gate ≤ 0) || decide (level ≥ gate_level)
    let snr := level / max noise_ref (1/1000000)
    let snr_on := s4.threshold_multiplier * (1 + s4.hysteresis)
    let snr_off := s4.threshold_multiplier * (1 - s4.hysteresis)
    let td := if s4.tone_on then gate_ok && decide (snr ≥ snr_off)
              else gate_ok && decide (snr ≥ snr_on)
    (s4, td)

/-- MorseDecoder._effective_dit_blocks (src/utils/morse.py lines
317-334): current dit estimate in block units, together with the state
whose estimated_wpm it mutates. -/
def effective_dit_blocks (s : MorseDecoder) : ℚ × MorseDecoder :=
  if s.wpm_mode == .manual || s.wpm_lock then
    let wpmq := max 5 (min 50 (s.wpm : ℚ))
    (max 1 ((1.2 / wpmq) / s.block_duration), { s with estimated_wpm := wpmq })
  else
    match s.dit_observations with
    | [] =>
      (max 1 ((1.2 / ((max s.wpm 1 : ℤ) : ℚ)) / s.block_duration),
       { s with estimated_wpm := (s.wpm : ℚ) })
    | _ :: _ =>
      let ordered := sortQ s.dit_observations
      let mid := ordered.getD (ordered.length / 2) 0
      let dit_blocks := max 1 mid
      let est_wpm := 1.2 / (dit_blocks * s.block_duration)
      (dit_blocks, { s with estimated_wpm := clampQ est_wpm 5 60 })

/-- The median the auto estimator computes: the upper-middle element of
the sorted candidate list (ordered[len(ordered) // 2]). -/
def medianObs (l : List ℚ) : ℚ :=
  (sortQ l).getD ((sortQ l).length / 2) 0

/-- MorseDecoder._record_dit_candidate (src/utils/morse.py lines
336-344). -/
def record_dit_candidate (s : MorseDecoder) (blocks : ℚ) : MorseDecoder :=
  if blocks ≤ 0 then s
  else if s.wpm_mode == .manual || s.wpm_lock then s
  else if blocks > 20 then s
  else { s with dit_observations := pushObs s.dit_observations blocks }

/-- The per-window refresh of the timing thresholds from the current
dit estimate (src/utils/morse.py lines 468-472). -/
def timingRefresh (s : MorseDecoder) : MorseDecoder × ℚ :=
  let r := effective_dit_blocks s
  let dit_blocks := r.1
  ({ r.2 with
      dah_threshold := 2.2 * dit_blocks
      dit_min := max 1 (0.38 * dit_blocks)
      char_gap := 2.6 * dit_blocks
      word_gap := 6.0 * dit_blocks }, dit_blocks)

/-- The tone-edge state machine of process_block
(src/utils/morse.py lines 474-540), after the timing thresholds were
refreshed; td is the tone_detected decision of this window. -/
def edgeStep (s : MorseDecoder) (td : Bool) : MorseDecoder × List MorseEvent :=
  if td && !s.tone_on then
    -- Tone edge up.
    let silence_count := s.silence_blocks
    let s1 := { s with tone_on := true, silence_blocks := 0, tone_blocks := 0 }
    if s1.current_symbol ≠ "" ∧ (silence_count : ℚ) ≥ s1.char_gap then
      let decoded := match lookupMorse s1.current_symbol with
        | some c => [MorseEvent.char c s1.current_symbol]
        | none => []
      let evs :=
        if (silence_count : ℚ) ≥ s1.word_gap then
          decoded ++ [MorseEvent.space,
            MorseEvent.gap .word (pyRound1 ((silence_count : ℚ) * s1.block_duration * 1000))]
        else
          decoded ++ [MorseEvent.gap .char (pyRound1 ((silence_count : ℚ) * s1.block_duration * 1000))]
      ({ s1 with current_symbol := "" }, evs)
    else if (silence_count : ℚ) ≥ 1 then
      if (silence_count : ℚ) ≤ s1.char_gap * 0.95 then
        (record_dit_candidate s1 (silence_count : ℚ), [])
      else (s1, [])
    else (s1, [])
  else if !td && s.tone_on then
    -- Tone edge down.
    let tone_count : ℚ := max 1 (s.tone_blocks : ℚ)
    let s1 := { s with tone_on := false, tone_blocks := 0, silence_blocks := 0 }
    let element := if tone_count ≥ s1.dah_threshold then "-"
                   else if tone_count ≥ s1.dit_min then "." else ""
    if element ≠ "" then
      let s2 := { s1 with current_symbol := s1.current_symbol ++ element }
      let ev := MorseEvent.element element
        (pyRound1 (tone_count * s1.block_duration * 1000))
      let s3 :=
        if element == "." then record_dit_candidate s2 tone_count
        else if tone_count ≤ s1.dah_threshold * 1.6 then
          record_dit_candidate s2 (tone_count / 3)
        else s2
      (s3, [ev])
    else (s1, [])
  else if td && s.tone_on then
    ({ s with tone_blocks := s.tone_blocks + 1 }, [])
  else
    ({ s with silence_blocks := s.silence_blocks + 1 }, [])

/-- Timing refresh followed by the edge state machine
(src/utils/morse.py lines 468-540). -/
def timingStep (s : MorseDecoder) (td : Bool) : MorseDecoder × List MorseEvent :=
  edgeStep (timingRefresh s).1 td

/-- The measurement half of one iteration of the per-window loop of
MorseDecoder.process_block (src/utils/morse.py lines 370-466): AGC,
window counter, magnitudes, optional retune, envelope and the adaptive
threshold decision.  Returns the state, the tone_detected decision and
the level appended to the scope amplitudes. -/
def detectionStep (s : MorseDecoder) (w : Window) :
    MorseDecoder × Bool × ℚ :=
  let sA := agcStep s w.rms
  let sB := { sA with blocks_processed := sA.blocks_processed + 1 }
  let m0 := measureWindow sB w
  let r := retuneStep sB w m0.1 m0.2
  let level := r.2.1
  let sD := envelopeStep r.1 level r.2.2
  let t := thresholdStep sD level r.2.2
  (t.1, t.2, level)

/-- One iteration of the per-window loop of MorseDecoder.process_block
(src/utils/morse.py lines 370-540).  Returns the new state, the decode
events of this window and the level appended to the scope amplitudes. -/
def processWindow (s : MorseDecoder) (w : Window) :
    MorseDecoder × List MorseEvent × ℚ :=
  let d := detectionStep s w
  let e := timingStep d.1 d.2.1
  (e.1, e.2, d.2.2)

/-- The per-window loop over a list of already-chunked analysis
windows, accumulating decode events and scope amplitudes in order.
(The byte-to-window chunking through the pending sample buffer is
abstracted: windows arrive already split.) -/
def processWindows : MorseDecoder → List Window → MorseDecoder × List MorseEvent × List ℚ
  | s, [] => (s, [], [])
  | s, w :: ws =>
    let r := processWindow s w
    let rest := processWindows r.1 ws
    (rest.1, r.2.1 ++ rest.2.1, r.2.2 :: rest.2.2)

/-- MorseDecoder.process_block (src/utils/morse.py lines 357-555) on a
list of analysis windows: the per-window loop, then the trailing scope
event when at least one window was processed.  The wpm field of the
scope event reads estimated_wpm before the dit_ms field calls
_effective_dit_blocks again (which mutates estimated_wpm), exactly as
the Python dict literal evaluates. -/
def process_block (s : MorseDecoder) (ws : List Window) :
    MorseDecoder × List MorseEvent :=
  let r := processWindows s ws
  let s1 := r.1
  match r.2.2 with
  | [] => (s1, r.2.1)
  | _ :: _ =>
    let d := effective_dit_blocks s1
    (d.2, r.2.1 ++ [MorseEvent.scope r.2.2 s1.threshold s1.tone_on
      (pyRound1 s1.active_tone_freq) s1.last_level s1.noise_floor
      (pyRound1 s1.estimated_wpm)
      (pyRound1 (d.1 * s1.block_duration * 1000))])

/-- First stage of MorseDecoder.flush (src/utils/morse.py lines
561-569): finalize an in-progress tone past the minimum. -/
def flushTone (s : MorseDecoder) : MorseDecoder × List MorseEvent :=
  if s.tone_on && decide ((s.tone_blocks : ℚ) ≥ s.dit_min) then
    let tone_count : ℚ := (s.tone_blocks : ℚ)
    let element := if tone_count ≥ s.dah_threshold then "-" else "."
    ({ s with current_symbol := s.current_symbol ++ element },
     [MorseEvent.element element (pyRound1 (tone_count * s.block_duration * 1000))])
  else (s, [])

/-- Second stage of MorseDecoder.flush (src/utils/morse.py lines
571-575): resolve the pending symbol; unresolved sequences emit
nothing but are still cleared. -/
def flushSymbol (s : MorseDecoder) : MorseDecoder × List MorseEvent :=
  if s.current_symbol ≠ "" then
    ({ s with current_symbol := "" },
     match lookupMorse s.current_symbol with
     | some c => [MorseEvent.char c s.current_symbol]
     | none => [])
  else (s, [])

/-- MorseDecoder.flush (src/utils/morse.py lines 557-580). -/
def flush (s : MorseDecoder) : MorseDecoder × List MorseEvent :=
  let r0 := flushTone s
  let r1 := flushSymbol r0.1
  ({ r1.1 with tone_on := false, tone_blocks := 0, silence_blocks := 0 },
   r0.2 ++ r1.2)

/-- A Python queue.Queue: maxsize 0 means unbounded (any maxsize <= 0
behaves as unbounded; 0 stands for all of them). -/
structure EventQueue where
  maxsize : ℕ
  items : List MorseEvent
deriving DecidableEq

/-- put_nowait: none models a raised queue.Full. -/
def putNowait (q : EventQueue) (e : MorseEvent) : Option EventQueue :=
  if 0 < q.maxsize ∧ q.maxsize ≤ q.items.length then none
  else some { q with items := q.items ++ [e] }

/-- A full queue: put_nowait raises. -/
def queueFull (q : EventQueue) : Prop := 0 < q.maxsize ∧ q.maxsize ≤ q.items.length

instance (q : EventQueue) : Decidable (queueFull q) := by
  unfold queueFull; infer_instance

/-- The event publication loop shared verbatim by morse_decoder_thread
(src/utils/morse.py lines 949-958) and morse_iq_decoder_thread (lines
1221-1230): for each event from process_block, a scope event is only
published when at least SCOPE_INTERVAL = 0.10 s has passed since the
last published scope, and every put_nowait is wrapped in
contextlib.suppress(queue.Full).  Each event is paired with the
time.monotonic() value observed while handling it; returns the final
last_scope time and the final queue. -/
def publish_decode_events : List (MorseEvent × ℚ) → ℚ → EventQueue → ℚ × EventQueue
  | [], last_scope, q => (last_scope, q)
  | (e, now) :: rest, last_scope, q =>
    if eventIsScope e then
      if now - last_scope ≥ 1/10 then
        publish_decode_events rest now ((putNowait q e).getD q)
      else
        publish_decode_events rest last_scope q
    else
      publish_decode_events rest last_scope ((putNowait q e).getD q)

/-- Lifecycle states of the capture session (src/routes/morse.py lines
45-49). -/
inductive MorseLifecycle where
  | idle
  | starting
  | running
  | stopping
  | error
deriving DecidableEq

/-- The attributes stop_morse reads off the multimon process object via
getattr (src/routes/morse.py lines 1011-1018): whether each attached
resource is present. -/
structure ProcHandle where
  has_rtl_process : Bool
  has_stop_decoder : Bool
  has_decoder_thread : Bool
  has_stderr_thread : Bool
  has_relay_thread : Bool
  has_control_queue : Bool
  has_master_fd : Bool
deriving DecidableEq

/-- The module-level mutable session slot of src/routes/morse.py
(morse_state, app_module.morse_process and the worker/sync globals).
Booleans record whether each global is non-None. -/
structure MorseRoutesState where
  morse_state : MorseLifecycle
  morse_process : Option ProcHandle
  morse_stop_event : Bool
  morse_decoder_worker : Bool
  morse_stderr_worker : Bool
  morse_relay_worker : Bool
  morse_control_queue : Bool
  morse_active_device : Option ℕ
  morse_session_id : ℕ
deriving DecidableEq

/-- The JSON status field of the stop_morse response. -/
inductive StopStatus where
  | stopping
  | not_running
  | stopped
deriving DecidableEq

/-- stop_morse (src/routes/morse.py lines 1000-1141), sequential
single-call semantics.  The first branch returns status stopping while
a stop is in progress; the second returns not_running when neither the
process nor any worker resource exists; otherwise the full cleanup path
runs (detach the session under the lock, signal, close, terminate,
join, release the device) and ends back in idle with every global
cleared.  No branch raises. -/
def stop_morse (s : MorseRoutesState) : MorseRoutesState × StopStatus :=
  if s.morse_state = .stopping then (s, .stopping)
  else
    let proc := s.morse_process
    let rtl_proc := (proc.map (fun p => p.has_rtl_process)).getD false
    let stop_event := s.morse_stop_event || (proc.map (fun p => p.has_stop_decoder)).getD false
    let decoder_thread := s.morse_decoder_worker || (proc.map (fun p => p.has_decoder_thread)).getD false
    let stderr_thread := s.morse_stderr_worker || (proc.map (fun p => p.has_stderr_thread)).getD false
    let relay_thread := s.morse_relay_worker || (proc.map (fun p => p.has_relay_thread)).getD false
    if !proc.isSome && !rtl_proc && !stop_event && !decoder_thread
        && !stderr_thread && !relay_thread then
      ({ s with morse_state := .idle }, .not_running)
    else
      ({ s with
          morse_state := .idle
          morse_process := none
          morse_stop_event := false
          morse_control_queue := false
          morse_decoder_worker := false
          morse_stderr_worker := false
          morse_relay_worker := false
          morse_active_device := none }, .stopped)

/-- A start request, with the decoder parameters already parsed out of
JSON: none models a value float()/int() raises on.  The mode strings
are taken already stripped and lowercased. -/
structure StartRequest where
  tone_freq : Option ℚ
  wpm : Option ℤ
  bandwidth_hz : Option ℤ
  threshold_mode : String
  wpm_mode : String
  threshold_multiplier : Option ℚ
  manual_threshold : Option ℚ
  threshold_offset : Option ℚ
  signal_gate : Option ℚ
  auto_tone_track : Bool
  tone_lock : Bool
  wpm_lock : Bool

/-- Embeds _validate_tone_freq (src/routes/morse.py lines 425-433): 300-1200
Hz or a ValueError. -/
def validate_tone_freq (v : Option ℚ) : Option ℚ :=
  match v with
  | none => none
  | some f => if 300 ≤ f ∧ f ≤ 1200 then some f else none

/-- Embeds _validate_wpm (src/routes/morse.py lines 436-444). -/
def validate_wpm (v : Option ℤ) : Option ℤ :=
  match v with
  | none => none
  | some n => if 5 ≤ n ∧ n ≤ 50 then some n else none

/-- Embeds _validate_bandwidth (src/routes/morse.py lines 447-454). -/
def validate_bandwidth (v : Option ℤ) : Option ℤ :=
  match v with
  | none => none
  | some n => if n = 50 ∨ n = 100 ∨ n = 200 ∨ n = 400 then some n else none

/-- Embeds _validate_threshold_mode and _validate_wpm_mode (src/routes/morse.py
lines 457-468): the empty value defaults to auto, anything else must be
auto or manual. -/
def validate_mode (v : String) : Option String :=
  let mode := if v = "" then "auto" else v
  if mode = "auto" ∨ mode = "manual" then some mode else none

/-- Embeds _validate_threshold_multiplier (src/routes/morse.py lines 471-478). -/
def validate_threshold_multiplier (v : Option ℚ) : Option ℚ :=
  match v with
  | none => none
  | some m => if 1.1 ≤ m ∧ m ≤ 8.0 then some m else none

/-- Embeds _validate_non_negative_float (src/routes/morse.py lines 481-488). -/
def validate_non_negative_float (v : Option ℚ) : Option ℚ :=
  match v with
  | none => none
  | some x => if 0 ≤ x then some x else none

/-- Embeds _validate_signal_gate (src/routes/morse.py lines 491-498). -/
def validate_signal_gate (v : Option ℚ) : Option ℚ :=
  match v with
  | none => none
  | some g => if 0 ≤ g ∧ g ≤ 1 then some g else none

/-- The validated decoder parameters of a start request. -/
structure MorseStartParams where
  tone_freq : ℚ
  wpm : ℤ
  bandwidth_hz : ℤ
  threshold_mode : String
  wpm_mode : String
  threshold_multiplier : ℚ
  manual_threshold : ℚ
  threshold_offset : ℚ
  min_signal_gate : ℚ
deriving DecidableEq

/-- The decoder-parameter validation block of start_morse
(src/routes/morse.py lines 533-547), in source order; any failure is a
ValueError answered with HTTP 400 before anything else happens. -/
def validate_start_params (r : StartRequest) : Option MorseStartParams := do
  let tone_freq ← validate_tone_freq r.tone_freq
  let wpm ← validate_wpm r.wpm
  let bandwidth_hz ← validate_bandwidth r.bandwidth_hz
  let threshold_mode ← validate_mode r.threshold_mode
  let wpm_mode ← validate_mode r.wpm_mode
  let threshold_multiplier ← validate_threshold_multiplier r.threshold_multiplier
  let manual_threshold ← validate_non_negative_float r.manual_threshold
  let threshold_offset ← validate_non_negative_float r.threshold_offset
  let min_signal_gate ← validate_signal_gate r.signal_gate
  pure { tone_freq, wpm, bandwidth_hz, threshold_mode, wpm_mode,
         threshold_multiplier, manual_threshold, threshold_offset,
         min_signal_gate }

/-- Externally visible side effects of start_morse that touch shared
resources. -/
inductive StartEffect where
  | claim_sdr_device (device : ℕ)
  | release_sdr_device (device : ℕ)
  | spawn_pipeline
deriving DecidableEq

/-- The JSON status of the start_morse response. -/
inductive StartStatus where
  | param_error
  | conflict
  | device_busy
  | tool_missing
  | started
  | launch_error
deriving DecidableEq

/-- start_morse (src/routes/morse.py lines 517-997) up to and including
the device claim, with an effect trace.  basicOk stands for the outcome
of the generic validate_frequency/gain/ppm/device_index block (lines
525-531, defined in utils/validation outside this subsystem): when it
fails the route answers 400 immediately.  claim_error stands for the
return value of app_module.claim_sdr_device (some owner message means
the device is busy).  Everything after the claim succeeds (building the
capture command, spawning, the retry matrix) is the launch continuation
applied to the state that holds the claimed device. -/
def start_morse
    (basicOk : Bool)
    (claim_error : Option String)
    (launch : MorseRoutesState → MorseRoutesState × List StartEffect × StartStatus)
    (r : StartRequest) (device : ℕ) (s : MorseRoutesState) :
    MorseRoutesState × List StartEffect × StartStatus :=
  if !basicOk then (s, [], .param_error)
  else
    match validate_start_params r with
    | none => (s, [], .param_error)
    | some _params =>
      if s.morse_state = .starting ∨ s.morse_state = .running
          ∨ s.morse_state = .stopping then
        (s, [], .conflict)
      else
        match claim_error with
        | some _owner => (s, [.claim_sdr_device device], .device_busy)
        | none =>
          let s1 := { s with
            morse_active_device := some device
            morse_session_id := s.morse_session_id + 1
            morse_state := .starting }
          let rest := launch s1
          (rest.1, .claim_sdr_device device :: rest.2.1, rest.2.2)

/-- Claim C9: MORSE_TABLE and CHAR_TO_MORSE form an exact bidirectional
mapping: the dot-dash keys are distinct, no two keys map to the same
character, the reverse table has the same number of entries, every
table entry maps back to its key through the reverse table, and
encoding then decoding any mapped character is the identity. -/
theorem morse_table_exact_bidirectional :
    (MORSE_TABLE.map Prod.fst).Nodup ∧
    (MORSE_TABLE.map Prod.snd).Nodup ∧
    CHAR_TO_MORSE.length = MORSE_TABLE.length ∧
    (∀ p ∈ MORSE_TABLE, lookupChar p.2 = some p.1) ∧
    (∀ p ∈ MORSE_TABLE, lookupMorse p.1 = some p.2) ∧
    (∀ p ∈ CHAR_TO_MORSE, lookupMorse p.2 = some p.1) := by
  decide

/-- Claim C10: reset_calibration clears exactly the calibration state
(noise floor, signal peak, threshold, warm-up min and max, block
counter, dit observations, estimated WPM, tone-on flag, tone and
silence counters, pending symbol) and leaves every other decoder field
unchanged, in particular the AGC gain, the active tone frequency and
its anchor, the envelope, the pending sample buffer and all
configuration parameters. -/
theorem reset_calibration_frame (s : MorseDecoder) :
    (reset_calibration s).noise_floor = 0 ∧
    (reset_calibration s).signal_peak = 0 ∧
    (reset_calibration s).threshold = 0 ∧
    (reset_calibration s).mag_min = none ∧
    (reset_calibration s).mag_max = 0 ∧
    (reset_calibration s).blocks_processed = 0 ∧
    (reset_calibration s).dit_observations = [] ∧
    (reset_calibration s).estimated_wpm = (s.wpm : ℚ) ∧
    (reset_calibration s).tone_on = false ∧
    (reset_calibration s).tone_blocks = 0 ∧
    (reset_calibration s).silence_blocks = 0 ∧
    (reset_calibration s).current_symbol = "" ∧
    (reset_calibration s).sample_rate = s.sample_rate ∧
    (reset_calibration s).tone_freq = s.tone_freq ∧
    (reset_calibration s).wpm = s.wpm ∧
    (reset_calibration s).bandwidth_hz = s.bandwidth_hz ∧
    (reset_calibration s).auto_tone_track = s.auto_tone_track ∧
    (reset_calibration s).tone_lock = s.tone_lock ∧
    (reset_calibration s).threshold_mode = s.threshold_mode ∧
    (reset_calibration s).manual_threshold = s.manual_threshold ∧
    (reset_calibration s).threshold_multiplier = s.threshold_multiplier ∧
    (reset_calibration s).threshold_offset = s.threshold_offset ∧
    (reset_calibration s).wpm_mode = s.wpm_mode ∧
    (reset_calibration s).wpm_lock = s.wpm_lock ∧
    (reset_calibration s).min_signal_gate = s.min_signal_gate ∧
    (reset_calibration s).block_size = s.block_size ∧
    (reset_calibration s).block_duration = s.block_duration ∧
    (reset_calibration s).active_tone_freq = s.active_tone_freq ∧
    (reset_calibration s).tone_anchor_freq = s.tone_anchor_freq ∧
    (reset_calibration s).tone_scan_range_hz = s.tone_scan_range_hz ∧
    (reset_calibration s).tone_scan_step_hz = s.tone_scan_step_hz ∧
    (reset_calibration s).tone_scan_interval_blocks = s.tone_scan_interval_blocks ∧
    (reset_calibration s).agc_target = s.agc_target ∧
    (reset_calibration s).agc_gain = s.agc_gain ∧
    (reset_calibration s).agc_alpha = s.agc_alpha ∧
    (reset_calibration s).attack_alpha = s.attack_alpha ∧
    (reset_calibration s).release_alpha = s.release_alpha ∧
    (reset_calibration s).envelope = s.envelope ∧
    (reset_calibration s).hysteresis = s.hysteresis ∧
    (reset_calibration s).WARMUP_BLOCKS = s.WARMUP_BLOCKS ∧
    (reset_calibration s).SETTLE_BLOCKS = s.SETTLE_BLOCKS ∧
    (reset_calibration s).dah_threshold = s.dah_threshold ∧
    (reset_calibration s).dit_min = s.dit_min ∧
    (reset_calibration s).char_gap = s.char_gap ∧
    (reset_calibration s).word_gap = s.word_gap ∧
    (reset_calibration s).pending_buffer = s.pending_buffer ∧
    (reset_calibration s).last_level = s.last_level ∧
    (reset_calibration s).last_noise_ref = s.last_noise_ref :=
  ⟨rfl, rfl, rfl, rfl, rfl, rfl, rfl, rfl, rfl, rfl, rfl, rfl,
   rfl, rfl, rfl, rfl, rfl, rfl, rfl, rfl, rfl, rfl, rfl, rfl,
   rfl, rfl, rfl, rfl, rfl, rfl, rfl, rfl, rfl, rfl, rfl, rfl,
   rfl, rfl, rfl, rfl, rfl, rfl, rfl, rfl, rfl, rfl, rfl, rfl⟩

/-- After a flush, the tone flag is down, the counters are zero and the
pending symbol is empty. -/
lemma flush_clears (s : MorseDecoder) :
    (flush s).1.tone_on = false ∧ (flush s).1.tone_blocks = 0 ∧
    (flush s).1.silence_blocks = 0 ∧ (flush s).1.current_symbol = "" := by
  refine ⟨rfl, rfl, rfl, ?_⟩
  show (flushSymbol (flushTone s).1).1.current_symbol = ""
  unfold flushSymbol
  split
  · rfl
  · simp_all

/-- Flushing a decoder with no in-progress tone and no pending symbol
emits nothing and changes nothing. -/
lemma flush_of_clean (t : MorseDecoder) (h1 : t.tone_on = false)
    (h2 : t.current_symbol = "") (h3 : t.tone_blocks = 0)
    (h4 : t.silence_blocks = 0) : flush t = (t, []) := by
  have e0 : flushTone t = (t, []) := by
    unfold flushTone
    rw [h1]
    simp
  have e1 : flushSymbol t = (t, []) := by
    unfold flushSymbol
    rw [h2]
    simp
  unfold flush
  rw [e0]
  dsimp only
  rw [e1]
  dsimp only
  rw [Prod.mk.injEq]
  refine ⟨?_, rfl⟩
  cases t
  simp_all

/-- Claim C8: flush is idempotent once nothing is pending: a second
immediate flush returns an empty event list and changes no state. -/
theorem flush_idempotent_when_nothing_pending (s : MorseDecoder) :
    flush (flush s).1 = ((flush s).1, []) := by
  obtain ⟨h1, h2, h3, h4⟩ := flush_clears s
  exact flush_of_clean _ h1 h4 h2 h3

/-- Claim C4: the stop command is idempotent and total.  A stop issued
while a stop is in progress answers stopping and changes nothing; with
no session resources it answers not_running with state idle; and after
any stop that is not answered stopping, a second consecutive stop
answers not_running.  stop_morse is a total function: no input raises. -/
theorem stop_morse_idempotent :
    (∀ s : MorseRoutesState, s.morse_state = .stopping →
      stop_morse s = (s, .stopping)) ∧
    (∀ s : MorseRoutesState, s.morse_state ≠ .stopping →
      s.morse_process = none → s.morse_stop_event = false →
      s.morse_decoder_worker = false → s.morse_stderr_worker = false →
      s.morse_relay_worker = false →
      stop_morse s = ({ s with morse_state := .idle }, .not_running)) ∧
    (∀ s : MorseRoutesState, s.morse_state ≠ .stopping →
      (stop_morse (stop_morse s).1).2 = .not_running) := by
  refine ⟨?_, ?_, ?_⟩
  · intro s h
    simp [stop_morse, h]
  · intro s h h1 h2 h3 h4 h5
    simp [stop_morse, h, h1, h2, h3, h4, h5]
  · intro s h
    unfold stop_morse
    rw [if_neg h]
    dsimp only
    split
    · rename_i hempty
      simp_all
    · rfl

/-- The routes state with a stop already in progress. -/
def routesStateStopping : MorseRoutesState :=
  { morse_state := .stopping, morse_process := none, morse_stop_event := false,
    morse_decoder_worker := false, morse_stderr_worker := false,
    morse_relay_worker := false, morse_control_queue := false,
    morse_active_device := none, morse_session_id := 3 }

/-- The idle routes state with no session resources. -/
def routesStateEmpty : MorseRoutesState :=
  { routesStateStopping with morse_state := .idle }

/-- A running session holding every resource. -/
def routesStateRunning : MorseRoutesState :=
  { morse_state := .running,
    morse_process := some
      { has_rtl_process := true, has_stop_decoder := true,
        has_decoder_thread := true, has_stderr_thread := true,
        has_relay_thread := true, has_control_queue := true,
        has_master_fd := true },
    morse_stop_event := true, morse_decoder_worker := true,
    morse_stderr_worker := true, morse_relay_worker := true,
    morse_control_queue := true, morse_active_device := some 0,
    morse_session_id := 3 }

theorem stop_morse_idempotent_witness :
    stop_morse routesStateStopping = (routesStateStopping, .stopping) ∧
    stop_morse routesStateEmpty
      = ({ routesStateEmpty with morse_state := .idle }, .not_running) ∧
    (stop_morse (stop_morse routesStateRunning).1).2 = .not_running :=
  ⟨stop_morse_idempotent.1 routesStateStopping rfl,
   stop_morse_idempotent.2.1 routesStateEmpty (by decide) rfl rfl rfl rfl rfl,
   stop_morse_idempotent.2.2 routesStateRunning (by decide)⟩

/-- Claim C5: a start request whose tone_freq is outside [300, 1200] Hz
(or does not parse as a number) is answered with a parameter error
before anything happens: no effect is emitted (in particular
claim_sdr_device is never called), and the routes state is returned
unchanged, so an idle session stays idle and no session resources are
created.  This holds for every outcome of the generic
frequency/gain/ppm/device validation, every device-claim outcome and
every launch continuation. -/
theorem start_morse_invalid_tone_freq_rejected
    (basicOk : Bool) (claim_error : Option String)
    (launch : MorseRoutesState → MorseRoutesState × List StartEffect × StartStatus)
    (r : StartRequest) (device : ℕ) (s : MorseRoutesState)
    (hout : ∀ f, r.tone_freq = some f → f < 300 ∨ 1200 < f) :
    start_morse basicOk claim_error launch r device s = (s, [], .param_error) := by
  unfold start_morse
  cases basicOk with
  | false => rfl
  | true =>
    have hv : validate_tone_freq r.tone_freq = none := by
      unfold validate_tone_freq
      cases hr : r.tone_freq with
      | none => rfl
      | some f =>
        dsimp only
        rcases hout f hr with hlt | hgt
        · rw [if_neg]
          rintro ⟨hle, -⟩
          exact absurd hle (not_le.mpr hlt)
        · rw [if_neg]
          rintro ⟨-, hle⟩
          exact absurd hle (not_le.mpr hgt)
    have hp : validate_start_params r = none := by
      unfold validate_start_params
      rw [hv]
      rfl
    simp [hp]

/-- The start request of the spec scenario: tone_freq = 50, all other
parameters valid. -/
def startRequestTone50 : StartRequest :=
  { tone_freq := some 50, wpm := some 15, bandwidth_hz := some 200,
    threshold_mode := "auto", wpm_mode := "auto",
    threshold_multiplier := some 2.8, manual_threshold := some 0,
    threshold_offset := some 0, signal_gate := some 0,
    auto_tone_track := true, tone_lock := false, wpm_lock := false }

theorem start_morse_invalid_tone_freq_rejected_witness :
    start_morse true none
      (fun s1 => (s1, [StartEffect.spawn_pipeline], .started))
      startRequestTone50 0 routesStateEmpty
      = (routesStateEmpty, [], .param_error) :=
  start_morse_invalid_tone_freq_rejected true none
    (fun s1 => (s1, [StartEffect.spawn_pipeline], .started))
    startRequestTone50 0 routesStateEmpty
    (by intro f hf; cases hf; left; norm_num)

/-- A full bounded output queue (maxsize 1, one event already queued),
like the bounded queues the runner is used with. -/
def fullOutputQueue : EventQueue := { maxsize := 1, items := [MorseEvent.space] }

/-- Counterexample to claim C2 as stated: with the output queue full, a
morse_element event handed to the publication loop of
morse_decoder_thread is NOT delivered to the output queue — put_nowait
raises queue.Full, contextlib.suppress swallows it and the event is
dropped, although the claim says element events are never dropped
regardless of queue state. -/
theorem nonscope_event_dropped_on_full_queue :
    (publish_decode_events [(MorseEvent.element "." 100, 0)] 0 fullOutputQueue).2
      = fullOutputQueue ∧
    MorseEvent.element "." 100 ∉
      (publish_decode_events [(MorseEvent.element "." 100, 0)] 0 fullOutputQueue).2.items := by
  decide

/-- put_nowait never changes maxsize. -/
lemma publish_maxsize (evs : List (MorseEvent × ℚ)) (last_scope : ℚ)
    (q : EventQueue) :
    (publish_decode_events evs last_scope q).2.maxsize = q.maxsize := by
  induction evs generalizing last_scope q with
  | nil => rfl
  | cons p rest ih =>
    obtain ⟨e, now⟩ := p
    unfold publish_decode_events
    by_cases hs : eventIsScope e = true
    · rw [if_pos hs]
      by_cases ht : now - last_scope ≥ 1/10
      · rw [if_pos ht]
        rw [ih]
        unfold putNowait
        split <;> rfl
      · rw [if_neg ht]
        exact ih _ _
    · rw [if_neg hs]
      rw [ih]
      unfold putNowait
      split <;> rfl

/-- Events already in the queue stay in the queue across the
publication loop. -/
lemma publish_mem_mono (evs : List (MorseEvent × ℚ)) (last_scope : ℚ)
    (q : EventQueue) (e : MorseEvent) (he : e ∈ q.items) :
    e ∈ (publish_decode_events evs last_scope q).2.items := by
  induction evs generalizing last_scope q with
  | nil => exact he
  | cons p rest ih =>
    obtain ⟨e2, now⟩ := p
    unfold publish_decode_events
    have hput : ∀ q2 : EventQueue, e ∈ q2.items →
        e ∈ ((putNowait q2 e2).getD q2).items := by
      intro q2 h2
      unfold putNowait
      split
      · exact h2
      · exact List.mem_append_left _ h2
    by_cases hs : eventIsScope e2 = true
    · rw [if_pos hs]
      by_cases ht : now - last_scope ≥ 1/10
      · rw [if_pos ht]
        exact ih _ _ (hput q he)
      · rw [if_neg ht]
        exact ih _ _ he
    · rw [if_neg hs]
      exact ih _ _ (hput q he)

/-- Claim C2 as amended: in the publication loop shared by
morse_decoder_thread and morse_iq_decoder_thread, non-scope events
(morse_element, morse_char, morse_space, morse_gap, status, info) are
never rate-limited: on an unbounded output queue every non-scope event
is delivered, and on any queue that is not full a non-scope event is
appended as is.  They are dropped only by backpressure: a full queue
silently sheds any event, as the counterexample shows.  Scope events
are additionally rate-limited to one per 0.10 s: a scope event arriving
within 0.10 s of the last published scope is dropped even on an empty
unbounded queue, and does not advance the rate-limit clock. -/
theorem publish_backpressure_behavior :
    (∀ (evs : List (MorseEvent × ℚ)) (last_scope : ℚ) (q : EventQueue),
      q.maxsize = 0 → ∀ p ∈ evs, eventIsScope p.1 = false →
        p.1 ∈ (publish_decode_events evs last_scope q).2.items) ∧
    (∀ (e : MorseEvent) (now last_scope : ℚ) (q : EventQueue),
      eventIsScope e = false → ¬queueFull q →
        (publish_decode_events [(e, now)] last_scope q).2.items = q.items ++ [e]) ∧
    (∀ (e : MorseEvent) (now last_scope : ℚ) (q : EventQueue),
      eventIsScope e = true → now - last_scope < 1/10 →
        publish_decode_events [(e, now)] last_scope q = (last_scope, q)) := by
  refine ⟨?_, ?_, ?_⟩
  · intro evs last_scope q hq p hp hns
    induction evs generalizing last_scope q with
    | nil => cases hp
    | cons p0 rest ih =>
      obtain ⟨e0, now0⟩ := p0
      unfold publish_decode_events
      have hnotfull : ∀ q2 : EventQueue, q2.maxsize = 0 →
          (putNowait q2 e0).getD q2 = { q2 with items := q2.items ++ [e0] } := by
        intro q2 h2
        unfold putNowait
        rw [if_neg]
        · rfl
        · rintro ⟨hpos, -⟩
          rw [h2] at hpos
          exact lt_irrefl 0 hpos
      rcases List.mem_cons.mp hp with heq | htail
      · -- p is the head event: it is non-scope, gets appended, and stays.
        subst heq
        rw [if_neg (by simp_all)]
        rw [hnotfull q hq]
        exact publish_mem_mono rest last_scope _ e0
          (List.mem_append_right _ (List.mem_singleton.mpr rfl))
      · by_cases hs : eventIsScope e0 = true
        · rw [if_pos hs]
          by_cases ht : now0 - last_scope ≥ 1/10
          · rw [if_pos ht]
            rw [hnotfull q hq]
            exact ih _ _ hq htail
          · rw [if_neg ht]
            exact ih _ _ hq htail
        · rw [if_neg hs]
          rw [hnotfull q hq]
          exact ih _ _ hq htail
  · intro e now last_scope q hns hnf
    unfold publish_decode_events
    rw [if_neg (by simp [hns])]
    unfold publish_decode_events putNowait
    rw [if_neg (show ¬(0 < q.maxsize ∧ q.maxsize ≤ q.items.length) from hnf)]
    rfl
  · intro e now last_scope q hs ht
    unfold publish_decode_events
    rw [if_pos hs, if_neg (not_le.mpr ht)]
    rfl

/-- An unbounded output queue, already holding one event. -/
def unboundedOutputQueue : EventQueue :=
  { maxsize := 0, items := [MorseEvent.status "started"] }

theorem publish_backpressure_behavior_witness :
    (MorseEvent.element "." 100 ∈
      (publish_decode_events
        [(MorseEvent.scope [] 0 false 700 0 0 15 80, 0),
         (MorseEvent.element "." 100, 1/100)]
        0 unboundedOutputQueue).2.items) ∧
    ((publish_decode_events [(MorseEvent.char "E" ".", 0)] 0 unboundedOutputQueue).2.items
      = unboundedOutputQueue.items ++ [MorseEvent.char "E" "."]) ∧
    (publish_decode_events [(MorseEvent.waitingScope 3, 1/100)] 0 unboundedOutputQueue
      = (0, unboundedOutputQueue)) :=
  ⟨publish_backpressure_behavior.1
      [(MorseEvent.scope [] 0 false 700 0 0 15 80, 0),
       (MorseEvent.element "." 100, 1/100)]
      0 unboundedOutputQueue rfl (MorseEvent.element "." 100, 1/100)
      (List.mem_cons_of_mem _ (List.mem_cons_self _ _)) rfl,
   publish_backpressure_behavior.2.1 (MorseEvent.char "E" ".") 0 0
      unboundedOutputQueue rfl (by decide),
   publish_backpressure_behavior.2.2 (MorseEvent.waitingScope 3) (1/100) 0
      unboundedOutputQueue rfl (by norm_num)⟩

/-- The decoder fields that the measurement phases of process_block
(AGC, retune, envelope, threshold) never touch: the whole timing and
symbol state machine plus the configuration it depends on. -/
structure coreFrame (a b : MorseDecoder) : Prop where
  tone_on : a.tone_on = b.tone_on
  tone_blocks : a.tone_blocks = b.tone_blocks
  silence_blocks : a.silence_blocks = b.silence_blocks
  current_symbol : a.current_symbol = b.current_symbol
  dit_observations : a.dit_observations = b.dit_observations
  blocks_processed : a.blocks_processed = b.blocks_processed
  warmup : a.WARMUP_BLOCKS = b.WARMUP_BLOCKS
  wpm_mode : a.wpm_mode = b.wpm_mode
  wpm_lock : a.wpm_lock = b.wpm_lock
  tone_anchor_freq : a.tone_anchor_freq = b.tone_anchor_freq
  block_duration : a.block_duration = b.block_duration

lemma coreFrame_rfl (a : MorseDecoder) : coreFrame a a :=
  ⟨rfl, rfl, rfl, rfl, rfl, rfl, rfl, rfl, rfl, rfl, rfl⟩

lemma coreFrame_trans {a b c : MorseDecoder} (h1 : coreFrame a b)
    (h2 : coreFrame b c) : coreFrame a c :=
  ⟨h1.tone_on.trans h2.tone_on, h1.tone_blocks.trans h2.tone_blocks,
   h1.silence_blocks.trans h2.silence_blocks,
   h1.current_symbol.trans h2.current_symbol,
   h1.dit_observations.trans h2.dit_observations,
   h1.blocks_processed.trans h2.blocks_processed,
   h1.warmup.trans h2.warmup, h1.wpm_mode.trans h2.wpm_mode,
   h1.wpm_lock.trans h2.wpm_lock,
   h1.tone_anchor_freq.trans h2.tone_anchor_freq,
   h1.block_duration.trans h2.block_duration⟩

lemma agcStep_frame (s : MorseDecoder) (rms : ℚ) :
    coreFrame (agcStep s rms) s ∧ (agcStep s rms).active_tone_freq = s.active_tone_freq := by
  unfold agcStep
  split <;> exact ⟨⟨rfl, rfl, rfl, rfl, rfl, rfl, rfl, rfl, rfl, rfl, rfl⟩, rfl⟩

lemma envelopeStep_frame (s : MorseDecoder) (level nr : ℚ) :
    coreFrame (envelopeStep s level nr) s ∧
    (envelopeStep s level nr).active_tone_freq = s.active_tone_freq ∧
    (envelopeStep s level nr).min_signal_gate = s.min_signal_gate :=
  ⟨⟨rfl, rfl, rfl, rfl, rfl, rfl, rfl, rfl, rfl, rfl, rfl⟩, rfl, rfl⟩

lemma thresholdStep_frame (s : MorseDecoder) (level nr : ℚ) :
    coreFrame (thresholdStep s level nr).1 s ∧
    (thresholdStep s level nr).1.active_tone_freq = s.active_tone_freq := by
  unfold thresholdStep
  dsimp only
  split
  · split <;> exact ⟨⟨rfl, rfl, rfl, rfl, rfl, rfl, rfl, rfl, rfl, rfl, rfl⟩, rfl⟩
  · split <;> exact ⟨⟨rfl, rfl, rfl, rfl, rfl, rfl, rfl, rfl, rfl, rfl, rfl⟩, rfl⟩

/-- The frequency _estimate_tone_frequency moves to when it retunes:
the smoothed, per-step-capped scan winner, clamped to stay within 240
Hz of the anchor and within [300, 1200]. -/
def retuneTarget (s : MorseDecoder) (w : Window) (mag : ℚ) : ℚ :=
  clampQ
    (s.active_tone_freq +
      0.35 * clampQ ((scanBest s w mag).1 - s.active_tone_freq) (-30) 30)
    (max 300 (s.tone_anchor_freq - 240))
    (min 1200 (s.tone_anchor_freq + 240))

/-- If _estimate_tone_frequency returns an updated state, that state
differs from the input only in active_tone_freq, the new frequency is
the clamped smoothed value, and both guards of the retune were passed:
the tone magnitude clearly exceeded the adjacent-band noise reference
and the best scanned magnitude exceeded the current magnitude by the
meaningful-improvement margin. -/
lemma estimate_some_spec (s : MorseDecoder) (w : Window) (mag nr : ℚ)
    (s2 : MorseDecoder)
    (h : estimate_tone_frequency s w mag nr = some s2) :
    s2 = { s with active_tone_freq := retuneTarget s w mag } ∧
    max (nr * 1.8) 0.02 < mag ∧
    mag * 1.12 < (scanBest s w mag).2 := by
  unfold estimate_tone_frequency at h
  split at h
  · exact absurd h (by simp)
  · split at h
    · exact absurd h (by simp)
    · dsimp only at h
      split at h
      · exact absurd h (by simp)
      · split at h
        · exact absurd h (by simp)
        · split at h
          · rename_i hmag hhi hbest habs
            obtain rfl := Option.some.inj h
            refine ⟨rfl, not_le.mp (by assumption), not_le.mp hbest⟩
          · exact absurd h (by simp)

lemma retuneStep_frame (s : MorseDecoder) (w : Window) (mag nr : ℚ) :
    coreFrame (retuneStep s w mag nr).1 s := by
  unfold retuneStep
  split
  · cases hest : estimate_tone_frequency s w mag nr with
    | none => exact coreFrame_rfl s
    | some s2 =>
      obtain ⟨hshape, -, -⟩ := estimate_some_spec s w mag nr s2 hest
      dsimp only
      rw [hshape]
      exact ⟨rfl, rfl, rfl, rfl, rfl, rfl, rfl, rfl, rfl, rfl, rfl⟩
  · exact coreFrame_rfl s

lemma effective_dit_blocks_frame (s : MorseDecoder) :
    coreFrame (effective_dit_blocks s).2 s ∧
    (effective_dit_blocks s).2.active_tone_freq = s.active_tone_freq ∧
    (effective_dit_blocks s).2.dah_threshold = s.dah_threshold ∧
    (effective_dit_blocks s).2.dit_min = s.dit_min ∧
    (effective_dit_blocks s).2.char_gap = s.char_gap ∧
    (effective_dit_blocks s).2.word_gap = s.word_gap ∧
    1 ≤ (effective_dit_blocks s).1 := by
  unfold effective_dit_blocks
  split
  · exact ⟨⟨rfl, rfl, rfl, rfl, rfl, rfl, rfl, rfl, rfl, rfl, rfl⟩,
      rfl, rfl, rfl, rfl, rfl, le_max_left 1 _⟩
  · split <;>
      exact ⟨⟨rfl, rfl, rfl, rfl, rfl, rfl, rfl, rfl, rfl, rfl, rfl⟩,
        rfl, rfl, rfl, rfl, rfl, le_max_left 1 _⟩

lemma timingRefresh_frame (s : MorseDecoder) :
    coreFrame (timingRefresh s).1 s ∧
    (timingRefresh s).1.active_tone_freq = s.active_tone_freq ∧
    (timingRefresh s).2 = (effective_dit_blocks s).1 ∧
    (timingRefresh s).1.dah_threshold = 2.2 * (effective_dit_blocks s).1 ∧
    (timingRefresh s).1.dit_min = max 1 (0.38 * (effective_dit_blocks s).1) ∧
    (timingRefresh s).1.char_gap = 2.6 * (effective_dit_blocks s).1 ∧
    (timingRefresh s).1.word_gap = 6.0 * (effective_dit_blocks s).1 := by
  obtain ⟨hf, ha, -, -, -, -, -⟩ := effective_dit_blocks_frame s
  have hupd : coreFrame (timingRefresh s).1 (effective_dit_blocks s).2 :=
    ⟨rfl, rfl, rfl, rfl, rfl, rfl, rfl, rfl, rfl, rfl, rfl⟩
  exact ⟨coreFrame_trans hupd hf, ha, rfl, rfl, rfl, rfl, rfl⟩

lemma record_dit_candidate_frame (s : MorseDecoder) (b : ℚ) :
    (record_dit_candidate s b).tone_on = s.tone_on ∧
    (record_dit_candidate s b).tone_blocks = s.tone_blocks ∧
    (record_dit_candidate s b).silence_blocks = s.silence_blocks ∧
    (record_dit_candidate s b).current_symbol = s.current_symbol ∧
    (record_dit_candidate s b).blocks_processed = s.blocks_processed ∧
    (record_dit_candidate s b).WARMUP_BLOCKS = s.WARMUP_BLOCKS ∧
    (record_dit_candidate s b).wpm_mode = s.wpm_mode ∧
    (record_dit_candidate s b).wpm_lock = s.wpm_lock ∧
    (record_dit_candidate s b).tone_anchor_freq = s.tone_anchor_freq ∧
    (record_dit_candidate s b).active_tone_freq = s.active_tone_freq ∧
    (record_dit_candidate s b).block_duration = s.block_duration := by
  unfold record_dit_candidate
  split
  · exact ⟨rfl, rfl, rfl, rfl, rfl, rfl, rfl, rfl, rfl, rfl, rfl⟩
  · split
    · exact ⟨rfl, rfl, rfl, rfl, rfl, rfl, rfl, rfl, rfl, rfl, rfl⟩
    · split <;> exact ⟨rfl, rfl, rfl, rfl, rfl, rfl, rfl, rfl, rfl, rfl, rfl⟩

/-- The helper _record_dit_candidate only ever touches the candidate deque. -/
lemma record_shape (s : MorseDecoder) (b : ℚ) :
    record_dit_candidate s b
      = { s with dit_observations := (record_dit_candidate s b).dit_observations } := by
  unfold record_dit_candidate
  split
  · rfl
  · split
    · rfl
    · split
      · rfl
      · rfl

/-- The edge state machine never touches the measurement configuration
or the window counter. -/
lemma edgeStep_frame (s : MorseDecoder) (td : Bool) :
    (edgeStep s td).1.active_tone_freq = s.active_tone_freq ∧
    (edgeStep s td).1.tone_anchor_freq = s.tone_anchor_freq ∧
    (edgeStep s td).1.blocks_processed = s.blocks_processed ∧
    (edgeStep s td).1.WARMUP_BLOCKS = s.WARMUP_BLOCKS ∧
    (edgeStep s td).1.wpm_mode = s.wpm_mode ∧
    (edgeStep s td).1.wpm_lock = s.wpm_lock ∧
    (edgeStep s td).1.block_duration = s.block_duration := by
  unfold edgeStep
  dsimp only
  repeat' split
  all_goals
    first
      | exact ⟨rfl, rfl, rfl, rfl, rfl, rfl, rfl⟩
      | (rw [record_shape]; exact ⟨rfl, rfl, rfl, rfl, rfl, rfl, rfl⟩)

/-- With no tone before and no tone now, the edge machine only counts
silence and emits nothing. -/
lemma edgeStep_idle (s : MorseDecoder) (h : s.tone_on = false) :
    edgeStep s false = ({ s with silence_blocks := s.silence_blocks + 1 }, []) := by
  unfold edgeStep
  rw [h]
  simp

/-- The measurement half changes no timing-machine field and advances
the window counter by exactly one. -/
lemma detectionStep_frame (s : MorseDecoder) (w : Window) :
    coreFrame (detectionStep s w).1
      { s with blocks_processed := s.blocks_processed + 1 } := by
  obtain ⟨hA, -⟩ := agcStep_frame s w.rms
  have hB : coreFrame
      { agcStep s w.rms with blocks_processed := (agcStep s w.rms).blocks_processed + 1 }
      { s with blocks_processed := s.blocks_processed + 1 } :=
    ⟨hA.tone_on, hA.tone_blocks, hA.silence_blocks, hA.current_symbol,
     hA.dit_observations, by dsimp only; rw [hA.blocks_processed],
     hA.warmup, hA.wpm_mode, hA.wpm_lock, hA.tone_anchor_freq,
     hA.block_duration⟩
  have hR := retuneStep_frame
    { agcStep s w.rms with blocks_processed := (agcStep s w.rms).blocks_processed + 1 }
    w (measureWindow { agcStep s w.rms with blocks_processed := (agcStep s w.rms).blocks_processed + 1 } w).1
    (measureWindow { agcStep s w.rms with blocks_processed := (agcStep s w.rms).blocks_processed + 1 } w).2
  obtain ⟨hE, -, -⟩ := envelopeStep_frame
    (retuneStep { agcStep s w.rms with blocks_processed := (agcStep s w.rms).blocks_processed + 1 }
      w (measureWindow { agcStep s w.rms with blocks_processed := (agcStep s w.rms).blocks_processed + 1 } w).1
      (measureWindow { agcStep s w.rms with blocks_processed := (agcStep s w.rms).blocks_processed + 1 } w).2).1
    (retuneStep { agcStep s w.rms with blocks_processed := (agcStep s w.rms).blocks_processed + 1 }
      w (measureWindow { agcStep s w.rms with blocks_processed := (agcStep s w.rms).blocks_processed + 1 } w).1
      (measureWindow { agcStep s w.rms with blocks_processed := (agcStep s w.rms).blocks_processed + 1 } w).2).2.1
    (retuneStep { agcStep s w.rms with blocks_processed := (agcStep s w.rms).blocks_processed + 1 }
      w (measureWindow { agcStep s w.rms with blocks_processed := (agcStep s w.rms).blocks_processed + 1 } w).1
      (measureWindow { agcStep s w.rms with blocks_processed := (agcStep s w.rms).blocks_processed + 1 } w).2).2.2
  obtain ⟨hT, -⟩ := thresholdStep_frame
    (envelopeStep
      (retuneStep { agcStep s w.rms with blocks_processed := (agcStep s w.rms).blocks_processed + 1 }
        w (measureWindow { agcStep s w.rms with blocks_processed := (agcStep s w.rms).blocks_processed + 1 } w).1
        (measureWindow { agcStep s w.rms with blocks_processed := (agcStep s w.rms).blocks_processed + 1 } w).2).1
      (retuneStep { agcStep s w.rms with blocks_processed := (agcStep s w.rms).blocks_processed + 1 }
        w (measureWindow { agcStep s w.rms with blocks_processed := (agcStep s w.rms).blocks_processed + 1 } w).1
        (measureWindow { agcStep s w.rms with blocks_processed := (agcStep s w.rms).blocks_processed + 1 } w).2).2.1
      (retuneStep { agcStep s w.rms with blocks_processed := (agcStep s w.rms).blocks_processed + 1 }
        w (measureWindow { agcStep s w.rms with blocks_processed := (agcStep s w.rms).blocks_processed + 1 } w).1
        (measureWindow { agcStep s w.rms with blocks_processed := (agcStep s w.rms).blocks_processed + 1 } w).2).2.2)
    (retuneStep { agcStep s w.rms with blocks_processed := (agcStep s w.rms).blocks_processed + 1 }
        w (measureWindow { agcStep s w.rms with blocks_processed := (agcStep s w.rms).blocks_processed + 1 } w).1
        (measureWindow { agcStep s w.rms with blocks_processed := (agcStep s w.rms).blocks_processed + 1 } w).2).2.1
    (retuneStep { agcStep s w.rms with blocks_processed := (agcStep s w.rms).blocks_processed + 1 }
        w (measureWindow { agcStep s w.rms with blocks_processed := (agcStep s w.rms).blocks_processed + 1 } w).1
        (measureWindow { agcStep s w.rms with blocks_processed := (agcStep s w.rms).blocks_processed + 1 } w).2).2.2
  exact coreFrame_trans hT (coreFrame_trans hE (coreFrame_trans hR hB))

/-- During warm-up the threshold tracker reports no tone. -/
lemma thresholdStep_warmup_td (s : MorseDecoder) (level nr : ℚ)
    (h : s.blocks_processed ≤ s.WARMUP_BLOCKS) :
    (thresholdStep s level nr).2 = false := by
  unfold thresholdStep
  rw [if_pos h]

/-- A window processed while still inside warm-up is never detected as
tone. -/
lemma detectionStep_warmup_td (s : MorseDecoder) (w : Window)
    (h : s.blocks_processed + 1 ≤ s.WARMUP_BLOCKS) :
    (detectionStep s w).2.1 = false := by
  unfold detectionStep
  dsimp only
  apply thresholdStep_warmup_td
  dsimp only [envelopeStep]
  rw [(retuneStep_frame _ _ _ _).blocks_processed,
      (retuneStep_frame _ _ _ _).warmup]
  dsimp only
  rw [(agcStep_frame _ _).1.blocks_processed, (agcStep_frame _ _).1.warmup]
  exact h

/-- With the tone flag down and no tone detected, one timing step only
counts silence: no event, no tone flag, no counter change. -/
lemma timingStep_idle (sE : MorseDecoder) (h : sE.tone_on = false) :
    (timingStep sE false).1.tone_on = false ∧
    (timingStep sE false).2 = [] ∧
    (timingStep sE false).1.blocks_processed = sE.blocks_processed ∧
    (timingStep sE false).1.WARMUP_BLOCKS = sE.WARMUP_BLOCKS := by
  have hT := timingRefresh_frame sE
  have ht1 : (timingRefresh sE).1.tone_on = false := hT.1.tone_on.trans h
  unfold timingStep
  rw [edgeStep_idle _ ht1]
  exact ⟨ht1, rfl, hT.1.blocks_processed, hT.1.warmup⟩

/-- One warm-up window emits nothing and leaves the tone flag down. -/
lemma processWindow_warmup (s : MorseDecoder) (w : Window)
    (h0 : s.tone_on = false) (h1 : s.blocks_processed + 1 ≤ s.WARMUP_BLOCKS) :
    (processWindow s w).1.tone_on = false ∧
    (processWindow s w).2.1 = [] ∧
    (processWindow s w).1.blocks_processed = s.blocks_processed + 1 ∧
    (processWindow s w).1.WARMUP_BLOCKS = s.WARMUP_BLOCKS := by
  unfold processWindow
  dsimp only
  rw [detectionStep_warmup_td s w h1]
  have hD := detectionStep_frame s w
  obtain ⟨a, b, c, d⟩ := timingStep_idle (detectionStep s w).1 (hD.tone_on.trans h0)
  exact ⟨a, b, c.trans hD.blocks_processed, d.trans hD.warmup⟩

/-- While the total window count stays inside warm-up, the whole
per-window loop emits nothing and never raises the tone flag. -/
lemma processWindows_warmup (ws : List Window) : ∀ s : MorseDecoder,
    s.tone_on = false → s.blocks_processed + ws.length ≤ s.WARMUP_BLOCKS →
    (processWindows s ws).1.tone_on = false ∧
    (processWindows s ws).2.1 = [] ∧
    (processWindows s ws).1.blocks_processed = s.blocks_processed + ws.length ∧
    (processWindows s ws).1.WARMUP_BLOCKS = s.WARMUP_BLOCKS := by
  induction ws with
  | nil => exact fun s h0 _ => ⟨h0, rfl, rfl, rfl⟩
  | cons w rest ih =>
    intro s h0 hlen
    have h1 : s.blocks_processed + 1 ≤ s.WARMUP_BLOCKS := by
      simp only [List.length_cons] at hlen
      omega
    obtain ⟨a, b, c, d⟩ := processWindow_warmup s w h0 h1
    have hlen2 : (processWindow s w).1.blocks_processed + rest.length
        ≤ (processWindow s w).1.WARMUP_BLOCKS := by
      rw [c, d]
      simp only [List.length_cons] at hlen
      omega
    obtain ⟨a2, b2, c2, d2⟩ := ih (processWindow s w).1 a hlen2
    refine ⟨a2, ?_, ?_, d2.trans d⟩
    · show (processWindow s w).2.1 ++ (processWindows (processWindow s w).1 rest).2.1 = []
      rw [b, b2]
      rfl
    · show (processWindows (processWindow s w).1 rest).1.blocks_processed = _
      rw [c2, c]
      simp only [List.length_cons]
      omega

/-- Claim C3: for every decoder construction and every input, while the
number of processed analysis windows is at most the fixed warm-up
window count _WARMUP_BLOCKS = 16, no tone transition is reported:
tone_on stays false and process_block emits no morse_element,
morse_char, morse_space or morse_gap event (only scope events),
regardless of the window contents. -/
theorem warmup_no_tone_transitions
    (sample_rate : ℕ) (tone_freq : ℚ) (wpm : ℤ) (bandwidth_hz : ℚ)
    (auto_tone_track tone_lock : Bool) (threshold_mode : ThresholdMode)
    (manual_threshold threshold_multiplier threshold_offset : ℚ)
    (wpm_mode : WpmMode) (wpm_lock : Bool) (min_signal_gate : ℚ)
    (ws : List Window) (hlen : ws.length ≤ 16) :
    let s0 := mkMorseDecoder sample_rate tone_freq wpm bandwidth_hz
      auto_tone_track tone_lock threshold_mode manual_threshold
      threshold_multiplier threshold_offset wpm_mode wpm_lock min_signal_gate
    s0.WARMUP_BLOCKS = 16 ∧
    (process_block s0 ws).1.tone_on = false ∧
    ∀ e ∈ (process_block s0 ws).2, eventIsScope e = true := by
  intro s0
  have hw : s0.WARMUP_BLOCKS = 16 := rfl
  have h0 : s0.tone_on = false := rfl
  have hb : s0.blocks_processed = 0 := rfl
  obtain ⟨a, b, -, -⟩ := processWindows_warmup ws s0 h0 (by rw [hb, hw]; omega)
  refine ⟨hw, ?_, ?_⟩
  · show (process_block s0 ws).1.tone_on = false
    unfold process_block
    dsimp only
    cases hamp : (processWindows s0 ws).2.2 with
    | nil => exact a
    | cons x xs =>
      dsimp only
      exact (effective_dit_blocks_frame (processWindows s0 ws).1).1.tone_on.trans a
  · intro e he
    unfold process_block at he
    dsimp only at he
    cases hamp : (processWindows s0 ws).2.2 with
    | nil =>
      rw [hamp] at he
      dsimp only at he
      rw [b] at he
      cases he
    | cons x xs =>
      rw [hamp] at he
      dsimp only at he
      rw [b] at he
      simp only [List.nil_append, List.mem_singleton] at he
      rw [he]
      rfl

/-- Two arbitrary concrete analysis windows. -/
def warmupWitnessWindows : List Window :=
  [{ rms := 1, magAt := fun _ => 1 }, { rms := 0, magAt := fun _ => 2 }]

theorem warmup_no_tone_transitions_witness :
    (let s0 := mkMorseDecoder 8000 700 15 200 true false .auto 0 2.8 0 .auto false 0
     s0.WARMUP_BLOCKS = 16 ∧
     (process_block s0 warmupWitnessWindows).1.tone_on = false ∧
     ∀ e ∈ (process_block s0 warmupWitnessWindows).2, eventIsScope e = true) :=
  warmup_no_tone_transitions 8000 700 15 200 true false .auto 0 2.8 0 .auto
    false 0 warmupWitnessWindows (by decide)

/-- The tone-down edge of the state machine: the element appended and
emitted is determined by the measured tone length against the
dah threshold and the minimum tone length held in the state. -/
lemma edgeStep_down (t : MorseDecoder) (h : t.tone_on = true) :
    (max 1 ((t.tone_blocks : ℚ)) ≥ t.dah_threshold →
      (edgeStep t false).2
        = [MorseEvent.element "-" (pyRound1 (max 1 ((t.tone_blocks : ℚ)) * t.block_duration * 1000))] ∧
      (edgeStep t false).1.current_symbol = t.current_symbol ++ "-") ∧
    (¬ max 1 ((t.tone_blocks : ℚ)) ≥ t.dah_threshold →
      max 1 ((t.tone_blocks : ℚ)) ≥ t.dit_min →
      (edgeStep t false).2
        = [MorseEvent.element "." (pyRound1 (max 1 ((t.tone_blocks : ℚ)) * t.block_duration * 1000))] ∧
      (edgeStep t false).1.current_symbol = t.current_symbol ++ ".") ∧
    (¬ max 1 ((t.tone_blocks : ℚ)) ≥ t.dah_threshold →
      ¬ max 1 ((t.tone_blocks : ℚ)) ≥ t.dit_min →
      (edgeStep t false).2 = [] ∧
      (edgeStep t false).1.current_symbol = t.current_symbol) := by
  unfold edgeStep
  rw [h]
  simp only [Bool.false_and, Bool.not_false, Bool.true_and, Bool.false_eq_true,
    if_false, if_true]
  dsimp only
  refine ⟨?_, ?_, ?_⟩
  · intro hdah
    rw [if_pos hdah]
    rw [if_pos (by decide : ¬ ("-" : String) = "")]
    constructor
    · rfl
    · split
      · rw [record_shape]
      · split
        · rw [record_shape]
        · rfl
  · intro hdah hdit
    rw [if_neg hdah, if_pos hdit]
    rw [if_pos (by decide : ¬ ("." : String) = "")]
    constructor
    · rfl
    · split
      · rw [record_shape]
      · split
        · rw [record_shape]
        · rfl
  · intro hdah hdit
    rw [if_neg hdah, if_neg hdit]
    rw [if_neg (by decide : ¬¬ ("" : String) = "")]
    exact ⟨rfl, rfl⟩

/-- Claim C1: at a tone-down edge inside process_block (tone flag up,
this window not detected as tone), with d = max 1 tone_blocks the
measured tone-on duration in analysis windows and dit the current dit
estimate: d at or above the dah threshold 2.2 x dit appends a dash and
emits a morse_element event with element dash; d at least the minimum
valid tone duration 0.38 x dit and below the dah threshold appends a
dot and emits element dot; d below the minimum appends nothing and
emits no element. -/
theorem tone_down_element_classification (s : MorseDecoder)
    (h : s.tone_on = true) :
    (2.2 * (effective_dit_blocks s).1 ≤ max 1 ((s.tone_blocks : ℚ)) →
      (timingStep s false).2
        = [MorseEvent.element "-" (pyRound1 (max 1 ((s.tone_blocks : ℚ)) * s.block_duration * 1000))] ∧
      (timingStep s false).1.current_symbol = s.current_symbol ++ "-") ∧
    (0.38 * (effective_dit_blocks s).1 ≤ max 1 ((s.tone_blocks : ℚ)) →
      max 1 ((s.tone_blocks : ℚ)) < 2.2 * (effective_dit_blocks s).1 →
      (timingStep s false).2
        = [MorseEvent.element "." (pyRound1 (max 1 ((s.tone_blocks : ℚ)) * s.block_duration * 1000))] ∧
      (timingStep s false).1.current_symbol = s.current_symbol ++ ".") ∧
    (max 1 ((s.tone_blocks : ℚ)) < 0.38 * (effective_dit_blocks s).1 →
      (timingStep s false).2 = [] ∧
      (timingStep s false).1.current_symbol = s.current_symbol) := by
  obtain ⟨hF, -, -, hdah, hdit, -, -⟩ := timingRefresh_frame s
  have hdit1 : 1 ≤ (effective_dit_blocks s).1 :=
    (effective_dit_blocks_frame s).2.2.2.2.2.2
  have edown := edgeStep_down (timingRefresh s).1 (hF.tone_on.trans h)
  rw [hF.tone_blocks, hF.block_duration, hF.current_symbol, hdah, hdit] at edown
  obtain ⟨edah, edot, enone⟩ := edown
  refine ⟨?_, ?_, ?_⟩
  · intro hge
    exact edah hge
  · intro hmin hlt
    refine edot (not_le.mpr hlt) (max_le ?_ hmin)
    exact le_max_left 1 _
  · intro hlt
    refine enone ?_ ?_
    · refine not_le.mpr (lt_of_lt_of_le hlt ?_)
      nlinarith [hdit1]
    · exact not_le.mpr (lt_of_lt_of_le hlt (le_max_right 1 _))

/-- A decoder sitting in a long tone: the default construction with the
tone flag raised and nine counted tone windows. -/
def toneDownWitnessState : MorseDecoder :=
  { defaultMorseDecoder with tone_on := true, tone_blocks := 9 }

theorem tone_down_element_classification_witness :
    (2.2 * (effective_dit_blocks toneDownWitnessState).1
        ≤ max 1 ((toneDownWitnessState.tone_blocks : ℚ)) →
      (timingStep toneDownWitnessState false).2
        = [MorseEvent.element "-" (pyRound1 (max 1 ((toneDownWitnessState.tone_blocks : ℚ)) * toneDownWitnessState.block_duration * 1000))] ∧
      (timingStep toneDownWitnessState false).1.current_symbol
        = toneDownWitnessState.current_symbol ++ "-") ∧
    (0.38 * (effective_dit_blocks toneDownWitnessState).1
        ≤ max 1 ((toneDownWitnessState.tone_blocks : ℚ)) →
      max 1 ((toneDownWitnessState.tone_blocks : ℚ))
        < 2.2 * (effective_dit_blocks toneDownWitnessState).1 →
      (timingStep toneDownWitnessState false).2
        = [MorseEvent.element "." (pyRound1 (max 1 ((toneDownWitnessState.tone_blocks : ℚ)) * toneDownWitnessState.block_duration * 1000))] ∧
      (timingStep toneDownWitnessState false).1.current_symbol
        = toneDownWitnessState.current_symbol ++ ".") ∧
    (max 1 ((toneDownWitnessState.tone_blocks : ℚ))
        < 0.38 * (effective_dit_blocks toneDownWitnessState).1 →
      (timingStep toneDownWitnessState false).2 = [] ∧
      (timingStep toneDownWitnessState false).1.current_symbol
        = toneDownWitnessState.current_symbol) :=
  tone_down_element_classification toneDownWitnessState rfl

lemma clampQ_le_hi (x lo hi : ℚ) : clampQ x lo hi ≤ hi := min_le_left _ _

lemma le_clampQ (x lo hi : ℚ) (h : lo ≤ hi) : lo ≤ clampQ x lo hi :=
  le_min h (le_max_left _ _)

/-- The drift invariant of auto tone tracking: the anchor sits in the
valid tone band and the active frequency sits in the intersection of
the band with the 240 Hz corridor around the anchor. -/
def ActiveInv (s : MorseDecoder) : Prop :=
  300 ≤ s.tone_anchor_freq ∧ s.tone_anchor_freq ≤ 1200 ∧
  max 300 (s.tone_anchor_freq - 240) ≤ s.active_tone_freq ∧
  s.active_tone_freq ≤ min 1200 (s.tone_anchor_freq + 240)

lemma ActiveInv_congr (a b : MorseDecoder)
    (h1 : a.tone_anchor_freq = b.tone_anchor_freq)
    (h2 : a.active_tone_freq = b.active_tone_freq)
    (h : ActiveInv b) : ActiveInv a := by
  unfold ActiveInv at *
  rw [h1, h2]
  exact h

lemma retuneStep_activeInv (s : MorseDecoder) (w : Window) (m n : ℚ)
    (h : ActiveInv s) : ActiveInv (retuneStep s w m n).1 := by
  unfold retuneStep
  split
  · cases hest : estimate_tone_frequency s w m n with
    | none => exact h
    | some s2 =>
      obtain ⟨hsh, -, -⟩ := estimate_some_spec s w m n s2 hest
      dsimp only
      rw [hsh]
      obtain ⟨h1, h2, -, -⟩ := h
      refine ⟨h1, h2, ?_, ?_⟩
      · apply le_clampQ
        apply max_le
        · apply le_min
          · norm_num
          · linarith
        · apply le_min <;> linarith
      · apply clampQ_le_hi
  · exact h

lemma detectionStep_activeInv (s : MorseDecoder) (w : Window)
    (h : ActiveInv s) : ActiveInv (detectionStep s w).1 := by
  unfold detectionStep
  dsimp only
  generalize hsB : ({ agcStep s w.rms with
    blocks_processed := (agcStep s w.rms).blocks_processed + 1 } : MorseDecoder) = sB
  have hsBinv : ActiveInv sB := by
    rw [← hsB]
    exact ActiveInv_congr _ _ (agcStep_frame s w.rms).1.tone_anchor_freq
      (agcStep_frame s w.rms).2 h
  generalize (measureWindow sB w).1 = m1
  generalize (measureWindow sB w).2 = m2
  have hRinv : ActiveInv (retuneStep sB w m1 m2).1 :=
    retuneStep_activeInv sB w m1 m2 hsBinv
  have h1 : (thresholdStep
        (envelopeStep (retuneStep sB w m1 m2).1 (retuneStep sB w m1 m2).2.1
          (retuneStep sB w m1 m2).2.2)
        (retuneStep sB w m1 m2).2.1 (retuneStep sB w m1 m2).2.2).1.tone_anchor_freq
      = (retuneStep sB w m1 m2).1.tone_anchor_freq :=
    (thresholdStep_frame _ _ _).1.tone_anchor_freq
  have h2 : (thresholdStep
        (envelopeStep (retuneStep sB w m1 m2).1 (retuneStep sB w m1 m2).2.1
          (retuneStep sB w m1 m2).2.2)
        (retuneStep sB w m1 m2).2.1 (retuneStep sB w m1 m2).2.2).1.active_tone_freq
      = (retuneStep sB w m1 m2).1.active_tone_freq :=
    (thresholdStep_frame _ _ _).2
  exact ActiveInv_congr _ _ h1 h2 hRinv

lemma timingStep_anchor_active (s : MorseDecoder) (td : Bool) :
    (timingStep s td).1.tone_anchor_freq = s.tone_anchor_freq ∧
    (timingStep s td).1.active_tone_freq = s.active_tone_freq := by
  obtain ⟨hF, hact, -, -, -, -, -⟩ := timingRefresh_frame s
  obtain ⟨e1, e2, -, -, -, -, -⟩ := edgeStep_frame (timingRefresh s).1 td
  exact ⟨e2.trans hF.tone_anchor_freq, e1.trans hact⟩

lemma processWindow_activeInv (s : MorseDecoder) (w : Window)
    (h : ActiveInv s) : ActiveInv (processWindow s w).1 := by
  unfold processWindow
  dsimp only
  obtain ⟨t1, t2⟩ :=
    timingStep_anchor_active (detectionStep s w).1 (detectionStep s w).2.1
  exact ActiveInv_congr _ _ t1 t2 (detectionStep_activeInv s w h)

lemma processWindow_anchor (s : MorseDecoder) (w : Window) :
    (processWindow s w).1.tone_anchor_freq = s.tone_anchor_freq := by
  unfold processWindow
  dsimp only
  exact (timingStep_anchor_active _ _).1.trans
    (detectionStep_frame s w).tone_anchor_freq

lemma processWindows_activeInv (ws : List Window) : ∀ s : MorseDecoder,
    ActiveInv s →
    ActiveInv (processWindows s ws).1 ∧
    (processWindows s ws).1.tone_anchor_freq = s.tone_anchor_freq := by
  induction ws with
  | nil => exact fun s h => ⟨h, rfl⟩
  | cons w rest ih =>
    intro s h
    obtain ⟨hi, ha⟩ := ih (processWindow s w).1 (processWindow_activeInv s w h)
    exact ⟨hi, ha.trans (processWindow_anchor s w)⟩

/-- A freshly constructed decoder satisfies the drift invariant: the
anchor is the configured tone clamped into [300, 1200] and the active
frequency starts at the anchor. -/
lemma mkMorseDecoder_activeInv (sample_rate : ℕ) (tone_freq : ℚ) (wpm : ℤ)
    (bandwidth_hz : ℚ) (auto_tone_track tone_lock : Bool)
    (threshold_mode : ThresholdMode)
    (manual_threshold threshold_multiplier threshold_offset : ℚ)
    (wpm_mode : WpmMode) (wpm_lock : Bool) (min_signal_gate : ℚ) :
    ActiveInv (mkMorseDecoder sample_rate tone_freq wpm bandwidth_hz
      auto_tone_track tone_lock threshold_mode manual_threshold
      threshold_multiplier threshold_offset wpm_mode wpm_lock
      min_signal_gate) := by
  have hlo : (300 : ℚ) ≤ clampQ tone_freq 300 1200 := le_clampQ _ _ _ (by norm_num)
  have hhi : clampQ tone_freq 300 1200 ≤ 1200 := clampQ_le_hi _ _ _
  refine ⟨hlo, hhi, ?_, ?_⟩
  · apply max_le hlo
    show clampQ tone_freq 300 1200 - 240 ≤ clampQ tone_freq 300 1200
    linarith
  · apply le_min hhi
    show clampQ tone_freq 300 1200 ≤ clampQ tone_freq 300 1200 + 240
    linarith

/-- Claim C6: auto tone tracking never drifts the active detector
frequency more than 240 Hz from the anchor frequency fixed at
construction, and keeps it inside [300, 1200] Hz, after any sequence of
processed windows; and a retune happens only when the window passed
both guards: the tone magnitude exceeded the adjacent-band noise
reference by the high-confidence factor 1.8 (and the absolute floor
0.02), and the best scanned magnitude exceeded the current tone
magnitude by the meaningful-improvement factor 1.12. -/
theorem tone_tracking_bounded_drift
    (sample_rate : ℕ) (tone_freq : ℚ) (wpm : ℤ) (bandwidth_hz : ℚ)
    (auto_tone_track tone_lock : Bool) (threshold_mode : ThresholdMode)
    (manual_threshold threshold_multiplier threshold_offset : ℚ)
    (wpm_mode : WpmMode) (wpm_lock : Bool) (min_signal_gate : ℚ)
    (ws : List Window) :
    (let s0 := mkMorseDecoder sample_rate tone_freq wpm bandwidth_hz
       auto_tone_track tone_lock threshold_mode manual_threshold
       threshold_multiplier threshold_offset wpm_mode wpm_lock min_signal_gate
     (processWindows s0 ws).1.tone_anchor_freq = s0.tone_anchor_freq ∧
     s0.tone_anchor_freq - 240 ≤ (processWindows s0 ws).1.active_tone_freq ∧
     (processWindows s0 ws).1.active_tone_freq ≤ s0.tone_anchor_freq + 240 ∧
     300 ≤ (processWindows s0 ws).1.active_tone_freq ∧
     (processWindows s0 ws).1.active_tone_freq ≤ 1200) ∧
    (∀ (s : MorseDecoder) (w : Window) (mag noise_ref : ℚ) (s2 : MorseDecoder),
      estimate_tone_frequency s w mag noise_ref = some s2 →
      max (noise_ref * 1.8) 0.02 < mag ∧
      mag * 1.12 < (scanBest s w mag).2) := by
  constructor
  · intro s0
    obtain ⟨hinv, hanchor⟩ := processWindows_activeInv ws s0
      (mkMorseDecoder_activeInv sample_rate tone_freq wpm bandwidth_hz
        auto_tone_track tone_lock threshold_mode manual_threshold
        threshold_multiplier threshold_offset wpm_mode wpm_lock min_signal_gate)
    obtain ⟨-, -, hlow, hhigh⟩ := hinv
    rw [hanchor] at hlow hhigh
    refine ⟨hanchor, ?_, ?_, ?_, ?_⟩
    · exact le_trans (le_max_right _ _) hlow
    · exact le_trans hhigh (min_le_right _ _)
    · exact le_trans (le_max_left _ _) hlow
    · exact le_trans hhigh (min_le_left _ _)
  · intro s w mag noise_ref s2 hest
    obtain ⟨-, hg1, hg2⟩ := estimate_some_spec s w mag noise_ref s2 hest
    exact ⟨hg1, hg2⟩

/-- A literal decoder state tuned at 700 Hz with a coarse 200 Hz scan
step, so the scan grid is just [520, 720]. -/
def retuneWitnessState : MorseDecoder :=
  { sample_rate := 8000, tone_freq := 700, wpm := 15, bandwidth_hz := 200,
    auto_tone_track := true, tone_lock := false, threshold_mode := .auto,
    manual_threshold := 0, threshold_multiplier := 2.8, threshold_offset := 0,
    wpm_mode := .auto, wpm_lock := false, min_signal_gate := 0,
    block_size := 64, block_duration := 1, active_tone_freq := 700,
    tone_anchor_freq := 700, tone_scan_range_hz := 180,
    tone_scan_step_hz := 200, tone_scan_interval_blocks := 8,
    agc_target := 0.22, agc_gain := 1, agc_alpha := 0.06,
    attack_alpha := 0.55, release_alpha := 0.45, envelope := 0,
    noise_floor := 0, signal_peak := 0, threshold := 0, hysteresis := 0.12,
    WARMUP_BLOCKS := 16, SETTLE_BLOCKS := 140, mag_min := none, mag_max := 0,
    blocks_processed := 0, dah_threshold := 0, dit_min := 0, char_gap := 0,
    word_gap := 0, dit_observations := [], estimated_wpm := 15,
    tone_on := false, tone_blocks := 0, silence_blocks := 0,
    current_symbol := "", pending_buffer := [], last_level := 0,
    last_noise_ref := 0 }

/-- A window whose strongest scanned frequency is 720 Hz. -/
def retuneWitnessWindow : Window :=
  { rms := 0, magAt := fun f => if f = 720 then 100 else 1 }

lemma retuneWitness_estimate :
    estimate_tone_frequency retuneWitnessState retuneWitnessWindow 1 (1/100)
      = some { retuneWitnessState with active_tone_freq := 707 } := by
  have hfl : (⌊(360000001 : ℚ) / 200000000⌋₊) = 1 := by
    rw [Nat.floor_eq_iff (by norm_num)]
    norm_num
  unfold estimate_tone_frequency scanBest scanFreqs magAtGain clampQ
    retuneWitnessState retuneWitnessWindow
  norm_num [hfl, List.range_succ, List.range_zero, List.foldl]

theorem tone_tracking_bounded_drift_witness :
    max ((1/100 : ℚ) * 1.8) 0.02 < 1 ∧
    (1 : ℚ) * 1.12 < (scanBest retuneWitnessState retuneWitnessWindow 1).2 :=
  (tone_tracking_bounded_drift 8000 700 15 200 true false .auto 0 2.8 0 .auto
      false 0 []).2
    retuneWitnessState retuneWitnessWindow 1 (1/100)
    { retuneWitnessState with active_tone_freq := 707 }
    retuneWitness_estimate

lemma mem_insertSorted {x a : ℚ} : ∀ {l : List ℚ},
    x ∈ insertSorted a l → x = a ∨ x ∈ l := by
  intro l
  induction l with
  | nil => intro h; simpa [insertSorted] using h
  | cons y ys ih =>
    intro h
    unfold insertSorted at h
    split at h
    · exact List.mem_cons.mp h
    · rcases List.mem_cons.mp h with h1 | h2
      · exact Or.inr (h1 ▸ List.mem_cons_self y ys)
      · rcases ih h2 with h3 | h3
        · exact Or.inl h3
        · exact Or.inr (List.mem_cons_of_mem y h3)

lemma length_insertSorted (a : ℚ) : ∀ (l : List ℚ),
    (insertSorted a l).length = l.length + 1 := by
  intro l
  induction l with
  | nil => rfl
  | cons y ys ih =>
    unfold insertSorted
    split
    · rfl
    · simpa using ih

lemma mem_sortQ {x : ℚ} : ∀ {l : List ℚ}, x ∈ sortQ l → x ∈ l := by
  intro l
  induction l with
  | nil => intro h; simpa [sortQ] using h
  | cons y ys ih =>
    intro h
    rcases mem_insertSorted h with h1 | h2
    · exact h1 ▸ List.mem_cons_self y ys
    · exact List.mem_cons_of_mem y (ih h2)

lemma length_sortQ : ∀ (l : List ℚ), (sortQ l).length = l.length := by
  intro l
  induction l with
  | nil => rfl
  | cons y ys ih =>
    show (insertSorted y (sortQ ys)).length = ys.length + 1
    rw [length_insertSorted, ih]

lemma getD_mem : ∀ (l : List ℚ) (n : ℕ), n < l.length → l.getD n 0 ∈ l
  | [], n, h => absurd h (by simp)
  | a :: t, 0, _ => List.mem_cons_self a t
  | a :: t, n + 1, h =>
    List.mem_cons_of_mem a (getD_mem t n (by simpa using h))

/-- The median element the estimator reads is one of the candidates. -/
lemma medianObs_mem (l : List ℚ) (h : l ≠ []) : medianObs l ∈ l := by
  unfold medianObs
  apply mem_sortQ
  apply getD_mem
  apply Nat.div_lt_self
  · rw [length_sortQ]
    exact List.length_pos.mpr h
  · norm_num

lemma pushObs_length (l : List ℚ) (b : ℚ) (_hl : l.length ≤ 32) :
    (pushObs l b).length ≤ 32 := by
  unfold pushObs
  dsimp only
  split
  · rw [List.length_drop]
    omega

  · rename_i hle
    rw [List.length_append] at hle ⊢
    omega

lemma pushObs_mem (l : List ℚ) (b : ℚ) {x : ℚ} (hx : x ∈ pushObs l b) :
    x ∈ l ∨ x = b := by
  unfold pushObs at hx
  dsimp only at hx
  split at hx
  · rcases List.mem_append.mp (List.mem_of_mem_drop hx) with h | h
    · exact Or.inl h
    · exact Or.inr (by simpa using h)
  · rcases List.mem_append.mp hx with h | h
    · exact Or.inl h
    · exact Or.inr (by simpa using h)

/-- The reachability invariant of the dit-candidate deque: at most 32
candidates, each between one window and the 20-window cap. -/
def ObsInv (s : MorseDecoder) : Prop :=
  s.dit_observations.length ≤ 32 ∧
  ∀ x ∈ s.dit_observations, 1 ≤ x ∧ x ≤ 20

lemma ObsInv_congr (a b : MorseDecoder)
    (h : a.dit_observations = b.dit_observations) (hb : ObsInv b) :
    ObsInv a := by
  unfold ObsInv at *
  rw [h]
  exact hb

lemma record_obsInv (s : MorseDecoder) (b : ℚ) (hb : 1 ≤ b)
    (h : ObsInv s) : ObsInv (record_dit_candidate s b) := by
  obtain ⟨hlen, hmem⟩ := h
  unfold record_dit_candidate
  split
  · exact ⟨hlen, hmem⟩
  · split
    · exact ⟨hlen, hmem⟩
    · split
      · exact ⟨hlen, hmem⟩
      · rename_i h0 hm h20
        push_neg at h20
        refine ⟨pushObs_length _ _ hlen, ?_⟩
        intro x hx
        rcases pushObs_mem _ _ hx with hin | rfl
        · exact hmem x hin
        · exact ⟨hb, h20⟩

/-- A dah-classified tone of integer window count at or above a dah
threshold of at least 2.2 spans at least 3 windows, so a third of it is
at least one window. -/
lemma dah_candidate_ge_one (n : ℕ) (h : (2.2 : ℚ) ≤ max 1 ((n : ℚ))) :
    (1 : ℚ) ≤ max 1 ((n : ℚ)) / 3 := by
  have h3 : (3 : ℚ) ≤ (n : ℚ) := by
    rcases le_or_lt 3 n with hn | hn
    · exact_mod_cast hn
    · have hn2 : n ≤ 2 := by omega
      have : (n : ℚ) ≤ 2 := by exact_mod_cast hn2
      have hmax : max 1 ((n : ℚ)) ≤ 2 := max_le (by norm_num) this
      linarith
  have hmax : max 1 ((n : ℚ)) = (n : ℚ) := max_eq_right (by linarith)
  rw [hmax]
  linarith

/-- The edge machine keeps the candidate invariant: every candidate it
records is at least one window (short tones and inter-element silences
are counted in whole windows; a dah contributes a third of at least
three windows) and the 20-window cap and 32-entry bound are enforced by
_record_dit_candidate itself. -/
lemma edgeStep_obsInv (s : MorseDecoder) (td : Bool)
    (hdah : (2.2 : ℚ) ≤ s.dah_threshold) (h : ObsInv s) :
    ObsInv (edgeStep s td).1 := by
  unfold edgeStep
  dsimp only
  split
  · -- tone edge up
    split
    · exact h
    · split
      · split
        · rename_i hge hle
          exact record_obsInv _ _ hge h
        · exact h
      · exact h
  · split
    · -- tone edge down
      by_cases hc1 : max 1 ((s.tone_blocks : ℚ)) ≥ s.dah_threshold
      · rw [if_pos hc1]
        rw [if_pos (by decide : ¬ ("-" : String) = "")]
        dsimp only
        rw [show (("-" : String) == ".") = false from rfl]
        simp only [Bool.false_eq_true, if_false]
        split
        · exact record_obsInv _ _ (dah_candidate_ge_one _ (le_trans hdah hc1)) h
        · exact h
      · rw [if_neg hc1]
        by_cases hc2 : max 1 ((s.tone_blocks : ℚ)) ≥ s.dit_min
        · rw [if_pos hc2]
          rw [if_pos (by decide : ¬ ("." : String) = "")]
          dsimp only
          rw [show (("." : String) == ".") = true from rfl]
          simp only [if_true]
          exact record_obsInv _ _ (le_max_left 1 _) h
        · rw [if_neg hc2]
          rw [if_neg (by decide : ¬¬ ("" : String) = "")]
          exact h
    · split
      · exact h
      · exact h

lemma timingStep_obsInv (s : MorseDecoder) (td : Bool) (h : ObsInv s) :
    ObsInv (timingStep s td).1 := by
  obtain ⟨hF, -, -, hdahEq, -, -, -⟩ := timingRefresh_frame s
  have hdit1 : 1 ≤ (effective_dit_blocks s).1 :=
    (effective_dit_blocks_frame s).2.2.2.2.2.2
  have hdah : (2.2 : ℚ) ≤ (timingRefresh s).1.dah_threshold := by
    rw [hdahEq]
    nlinarith [hdit1]
  exact edgeStep_obsInv _ td hdah (ObsInv_congr _ _ hF.dit_observations h)

lemma processWindow_obsInv (s : MorseDecoder) (w : Window) (h : ObsInv s) :
    ObsInv (processWindow s w).1 := by
  unfold processWindow
  dsimp only
  exact timingStep_obsInv _ _
    (ObsInv_congr _ _ (detectionStep_frame s w).dit_observations h)

lemma processWindow_config (s : MorseDecoder) (w : Window) :
    (processWindow s w).1.wpm_mode = s.wpm_mode ∧
    (processWindow s w).1.wpm_lock = s.wpm_lock := by
  unfold processWindow
  dsimp only
  have hD := detectionStep_frame s w
  have hT := timingRefresh_frame (detectionStep s w).1
  have hE := edgeStep_frame (timingRefresh (detectionStep s w).1).1
    (detectionStep s w).2.1
  exact ⟨hE.2.2.2.2.1.trans (hT.1.wpm_mode.trans hD.wpm_mode),
    hE.2.2.2.2.2.1.trans (hT.1.wpm_lock.trans hD.wpm_lock)⟩

lemma processWindows_obsInv (ws : List Window) : ∀ s : MorseDecoder,
    ObsInv s →
    ObsInv (processWindows s ws).1 ∧
    (processWindows s ws).1.wpm_mode = s.wpm_mode ∧
    (processWindows s ws).1.wpm_lock = s.wpm_lock := by
  induction ws with
  | nil => exact fun s h => ⟨h, rfl, rfl⟩
  | cons w rest ih =>
    intro s h
    obtain ⟨h1, h2, h3⟩ := ih (processWindow s w).1 (processWindow_obsInv s w h)
    obtain ⟨c1, c2⟩ := processWindow_config s w
    exact ⟨h1, h2.trans c1, h3.trans c2⟩

/-- In auto mode with at least one candidate and all candidates at
least one window, the effective dit estimate is exactly the upper
median of the candidates and the estimated WPM lands in [5, 60]. -/
lemma effective_dit_auto_median (s : MorseDecoder)
    (hm : s.wpm_mode = .auto) (hl : s.wpm_lock = false)
    (hne : s.dit_observations ≠ [])
    (hge : ∀ x ∈ s.dit_observations, 1 ≤ x) :
    (effective_dit_blocks s).1 = medianObs s.dit_observations ∧
    5 ≤ (effective_dit_blocks s).2.estimated_wpm ∧
    (effective_dit_blocks s).2.estimated_wpm ≤ 60 := by
  have hcond : (s.wpm_mode == WpmMode.manual || s.wpm_lock) = false := by
    rw [hm, hl]
    rfl
  unfold effective_dit_blocks
  rw [hcond]
  simp only [Bool.false_eq_true, if_false]
  cases hobs : s.dit_observations with
  | nil => exact absurd hobs hne
  | cons a t =>
    dsimp only
    have hmem : medianObs (a :: t) ∈ a :: t :=
      medianObs_mem (a :: t) (by simp)
    have hge1 : 1 ≤ medianObs (a :: t) := by
      apply hge
      rw [hobs]
      exact hmem
    exact ⟨max_eq_right hge1, le_clampQ _ _ _ (by norm_num), clampQ_le_hi _ _ _⟩

/-- Claim C7: in auto WPM mode (wpm_mode auto, wpm_lock false), from a
freshly calibrated decoder (empty candidate deque, as __init__ and
reset_calibration leave it) and along any processed window sequence:
the retained dit-duration candidates stay a bounded collection of at
most 32 entries, every retained candidate is at most 20 windows, the
effective dit duration equals the median of the retained candidates
whenever at least one exists, and the estimated WPM the estimator then
publishes lies in [5, 60]. -/
theorem auto_wpm_estimator_spec (s0 : MorseDecoder) (ws : List Window)
    (hmode : s0.wpm_mode = .auto) (hlock : s0.wpm_lock = false)
    (hobs : s0.dit_observations = []) :
    (processWindows s0 ws).1.dit_observations.length ≤ 32 ∧
    (∀ x ∈ (processWindows s0 ws).1.dit_observations, x ≤ 20) ∧
    ((processWindows s0 ws).1.dit_observations ≠ [] →
      (effective_dit_blocks (processWindows s0 ws).1).1
        = medianObs (processWindows s0 ws).1.dit_observations) ∧
    ((processWindows s0 ws).1.dit_observations ≠ [] →
      5 ≤ (effective_dit_blocks (processWindows s0 ws).1).2.estimated_wpm ∧
      (effective_dit_blocks (processWindows s0 ws).1).2.estimated_wpm ≤ 60) := by
  have hinv0 : ObsInv s0 := by
    unfold ObsInv
    rw [hobs]
    exact ⟨by simp, by simp⟩
  obtain ⟨⟨hlen, hx⟩, hcm, hcl⟩ := processWindows_obsInv ws s0 hinv0
  refine ⟨hlen, ?_, ?_, ?_⟩
  · intro x hxm
    exact (hx x hxm).2
  · intro hne
    exact (effective_dit_auto_median _ (hcm.trans hmode) (hcl.trans hlock) hne
      (fun x hm => (hx x hm).1)).1
  · intro hne
    exact (effective_dit_auto_median _ (hcm.trans hmode) (hcl.trans hlock) hne
      (fun x hm => (hx x hm).1)).2

/-- A decoder past warm-up, in auto WPM mode with an empty candidate
deque, holding a two-window tone; auto tracking off keeps the scan out
of the trace. -/
def ditWitnessState : MorseDecoder :=
  { sample_rate := 8000, tone_freq := 700, wpm := 1, bandwidth_hz := 200,
    auto_tone_track := false, tone_lock := false, threshold_mode := .auto,
    manual_threshold := 0, threshold_multiplier := 2, threshold_offset := 0,
    wpm_mode := .auto, wpm_lock := false, min_signal_gate := 0,
    block_size := 64, block_duration := 1, active_tone_freq := 700,
    tone_anchor_freq := 700, tone_scan_range_hz := 180,
    tone_scan_step_hz := 10, tone_scan_interval_blocks := 8,
    agc_target := 0.22, agc_gain := 1, agc_alpha := 0.06,
    attack_alpha := 0.55, release_alpha := 0.45, envelope := 0,
    noise_floor := 0, signal_peak := 0, threshold := 0, hysteresis := 0.12,
    WARMUP_BLOCKS := 16, SETTLE_BLOCKS := 140, mag_min := none, mag_max := 0,
    blocks_processed := 20, dah_threshold := 0, dit_min := 0, char_gap := 0,
    word_gap := 0, dit_observations := [], estimated_wpm := 1,
    tone_on := true, tone_blocks := 2, silence_blocks := 0,
    current_symbol := "", pending_buffer := [], last_level := 0,
    last_noise_ref := 0 }

/-- A silent window: the tone drops, producing a tone-down edge. -/
def ditWitnessWindow : Window := { rms := 0, magAt := fun _ => 0 }

lemma ditWitness_eval :
    (processWindows ditWitnessState [ditWitnessWindow]).1.dit_observations
      = [2] := by
  have hwm : (WpmMode.auto = WpmMode.manual) = False :=
    eq_false (by decide)
  unfold processWindows processWindow detectionStep agcStep measureWindow
    magAtGain noise_low_freq noise_high_freq retuneStep envelopeStep
    thresholdStep timingStep timingRefresh effective_dit_blocks edgeStep
    record_dit_candidate pushObs clampQ ditWitnessState ditWitnessWindow
  have hse : (("." : String) = "") = False := eq_false (by decide)
  norm_num [hwm, hse]
  norm_num [processWindows]

theorem auto_wpm_estimator_spec_witness :
    (processWindows ditWitnessState [ditWitnessWindow]).1.dit_observations
      = [2] ∧
    (processWindows ditWitnessState [ditWitnessWindow]).1.dit_observations.length
      ≤ 32 ∧
    (∀ x ∈ (processWindows ditWitnessState [ditWitnessWindow]).1.dit_observations,
      x ≤ 20) ∧
    (effective_dit_blocks (processWindows ditWitnessState [ditWitnessWindow]).1).1
      = medianObs (processWindows ditWitnessState [ditWitnessWindow]).1.dit_observations ∧
    5 ≤ (effective_dit_blocks (processWindows ditWitnessState [ditWitnessWindow]).1).2.estimated_wpm ∧
    (effective_dit_blocks (processWindows ditWitnessState [ditWitnessWindow]).1).2.estimated_wpm
      ≤ 60 := by
  have hne : (processWindows ditWitnessState [ditWitnessWindow]).1.dit_observations
      ≠ [] := by
    rw [ditWitness_eval]
    simp
  obtain ⟨hl, hb, hc, hd⟩ :=
    auto_wpm_estimator_spec ditWitnessState [ditWitnessWindow] rfl rfl rfl
  exact ⟨ditWitness_eval, hl, hb, hc hne, hd hne⟩
